import Mathlib

/-!
# DINO Run: a shallow embedding of `script.js`

The class `DinoGame` of `script.js` is embedded as a record of its mutable
fields together with one Lean function per method.  Conventions:

* JavaScript numbers are exact rationals (`ℚ`); rounding of IEEE doubles is
  outside the model.
* `Math.random`, `Math.sin` and `Math.PI` are supplied by a record `Math`.
  The `n`-th call of `Math.random()` made by the program returns
  `Math.random n`; the state counts the calls made so far (`randomCalls`).
* The DOM collaborators are the two `style.display` values and the two text
  sinks; `localStorage` is the value stored under `dinoHighScore` together
  with the number of `setItem` calls made.
* Fields assigned once in the constructor and never written again
  (`baseSpeed`, `gravity`, `jumpPower`, the canvas size) are constants.
  Colours and the `ground` record are only read by the drawing code and are
  left out.
-/

/-- The numeric services of the host: the stream of `Math.random()` results,
`Math.sin` and `Math.PI`. -/
structure Math where
  random : ℕ → ℚ
  sin : ℚ → ℚ
  PI : ℚ

/-- Rounding down, `Math.floor`, as a number. -/
def Math.floor (q : ℚ) : ℚ := ((⌊q⌋ : ℤ) : ℚ)

/-- Values of `gameState`. -/
inductive GameState where
  | waiting
  | playing
  | gameOver
  deriving DecidableEq, Repr

/-- Values written to `style.display`. -/
inductive Display where
  | block
  | none
  deriving DecidableEq, Repr

/-- Values of an obstacle's `type`. -/
inductive ObstacleType where
  | cactus
  | bird
  deriving DecidableEq, Repr

/-- Rectangles passed to `isColliding`. -/
structure Rect where
  x : ℚ
  y : ℚ
  width : ℚ
  height : ℚ
  deriving DecidableEq

/-- The record `this.dino` (colours left out). -/
structure Dino where
  x : ℚ
  y : ℚ
  width : ℚ
  height : ℚ
  velY : ℚ
  jumping : Bool
  ducking : Bool
  deriving DecidableEq

/-- An element of `this.obstacles`.  A cactus has no `initialY`, `wingPhase`,
`movementPhase` or `shouldMove` property; these are never read for a cactus
and are held at `0` / `false` (an absent `shouldMove` is falsy). -/
structure Obstacle where
  type : ObstacleType
  x : ℚ
  y : ℚ
  width : ℚ
  height : ℚ
  initialY : ℚ
  wingPhase : ℚ
  movementPhase : ℚ
  shouldMove : Bool
  deriving DecidableEq

/-- An element of `this.clouds`. -/
structure Cloud where
  x : ℚ
  y : ℚ
  width : ℚ
  height : ℚ
  speed : ℚ
  deriving DecidableEq

/-- The colour property of a particle, when it has one. -/
inductive ParticleColor where
  | ef4444
  deriving DecidableEq, Repr

/-- An element of `this.particles`. -/
structure Particle where
  x : ℚ
  y : ℚ
  velX : ℚ
  velY : ℚ
  life : ℚ
  maxLife : ℚ
  size : ℚ
  color : Option ParticleColor
  deriving DecidableEq

/-- What the page provides before the script runs: the inline display of the
two toggled elements and the text of the score element. -/
structure Page where
  controlHint : Display
  gameOverElement : Display
  scoreElement : ℤ

/-- The mutable state of a `DinoGame` instance, the two closure variables of
`setupControls`, the DOM collaborators and the persistent store. -/
structure DinoGame where
  gameState : GameState
  score : ℚ
  highScore : ℤ
  gameSpeed : ℚ
  lastTime : ℚ
  dino : Dino
  obstacles : List Obstacle
  clouds : List Cloud
  particles : List Particle
  obstacleTimer : ℚ
  cloudTimer : ℚ
  frameCount : ℚ
  isJumping : Bool
  isDucking : Bool
  controlHint : Display
  gameOverElement : Display
  scoreElement : ℤ
  highScoreElement : ℤ
  localStorage : Option ℤ
  setItemCalls : ℕ
  randomCalls : ℕ
  deriving DecidableEq

namespace DinoGame

/-- The constant `this.baseSpeed`. -/
def baseSpeed : ℚ := 8

/-- The constant `this.gravity`. -/
def gravity : ℚ := 0.8

/-- The constant `this.jumpPower`. -/
def jumpPower : ℚ := 16

/-- The constant `this.canvas.width`. -/
def canvasWidth : ℚ := 800

/-- The method `updateScore`: the score element shows the floored score. -/
def updateScore (g : DinoGame) : DinoGame :=
  { g with scoreElement := ⌊g.score⌋ }

/-- The method `updateHighScore`. -/
def updateHighScore (g : DinoGame) : DinoGame :=
  { g with highScoreElement := g.highScore }

/-- One iteration of the loop of `generateClouds`. -/
def pushInitialCloud (m : Math) (g : DinoGame) : DinoGame :=
  { g with
    clouds := g.clouds ++
      [{ x := m.random g.randomCalls * canvasWidth
         y := m.random (g.randomCalls + 1) * 100 + 20
         width := 60 + m.random (g.randomCalls + 2) * 40
         height := 30 + m.random (g.randomCalls + 3) * 20
         speed := 0.5 + m.random (g.randomCalls + 4) * 0.5 }]
    randomCalls := g.randomCalls + 5 }

/-- The method `generateClouds`: three clouds are pushed. -/
def generateClouds (m : Math) (g : DinoGame) : DinoGame :=
  pushInitialCloud m (pushInitialCloud m (pushInitialCloud m g))

/-- The constructor followed by `init()`: the first `gameLoop(0)` call has
elapsed time `0` and neither updates nor renders. -/
def new (m : Math) (page : Page) (stored : Option ℤ) : DinoGame :=
  generateClouds m (updateHighScore
    { gameState := .waiting
      score := 0
      highScore := stored.getD 0
      gameSpeed := 8
      lastTime := 0
      dino :=
        { x := 80, y := 300, width := 50, height := 45, velY := 0
          jumping := false, ducking := false }
      obstacles := []
      clouds := []
      particles := []
      obstacleTimer := 0
      cloudTimer := 0
      frameCount := 0
      isJumping := false
      isDucking := false
      controlHint := page.controlHint
      gameOverElement := page.gameOverElement
      scoreElement := page.scoreElement
      highScoreElement := 0
      localStorage := stored
      setItemCalls := 0
      randomCalls := 0 })

/-- The method `startGame`. -/
def startGame (g : DinoGame) : DinoGame :=
  { g with gameState := .playing, controlHint := .none, gameOverElement := .none }

/-- One iteration of the loop of `createParticles`. -/
def pushParticle (m : Math) (x y : ℚ) (g : DinoGame) : DinoGame :=
  { g with
    particles := g.particles ++
      [{ x := x + (m.random g.randomCalls - 0.5) * 20
         y := y
         velX := (m.random (g.randomCalls + 1) - 0.5) * 4
         velY := m.random (g.randomCalls + 2) * -3
         life := 30
         maxLife := 30
         size := m.random (g.randomCalls + 3) * 3 + 1
         color := none }]
    randomCalls := g.randomCalls + 4 }

/-- The method `createParticles`: five particles are pushed. -/
def createParticles (m : Math) (x y : ℚ) (g : DinoGame) : DinoGame :=
  pushParticle m x y (pushParticle m x y (pushParticle m x y
    (pushParticle m x y (pushParticle m x y g))))

/-- The method `jump`. -/
def jump (m : Math) (g : DinoGame) : DinoGame :=
  if !g.dino.jumping then
    createParticles m (g.dino.x + g.dino.width / 2) (g.dino.y + g.dino.height)
      { g with dino := { g.dino with velY := -jumpPower, jumping := true } }
  else g

/-- The method `resetGame`. -/
def resetGame (g : DinoGame) : DinoGame :=
  updateScore
    { g with
      gameState := .waiting
      score := 0
      gameSpeed := baseSpeed
      obstacles := []
      particles := []
      dino := { g.dino with y := 300, velY := 0, jumping := false, ducking := false }
      obstacleTimer := 0
      frameCount := 0
      controlHint := .block
      gameOverElement := .none }

/-- The method `handleJump`. -/
def handleJump (m : Math) (g : DinoGame) : DinoGame :=
  if g.gameState = .waiting then startGame g
  else if g.gameState = .playing ∧ g.dino.jumping = false then jump m g
  else if g.gameState = .gameOver then resetGame g
  else g

/-- The body of `updateDino`, which reads and writes `this.dino` only. -/
def dinoPhysics (d : Dino) : Dino :=
  let d := { d with velY := d.velY + gravity }
  let d := { d with y := d.y + d.velY }
  let d := if d.y ≥ 300 then { d with y := 300, velY := 0, jumping := false } else d
  if d.ducking ∧ d.jumping = false then { d with height := 30, y := 320 }
  else if d.jumping = false then { d with height := 45, y := 300 }
  else { d with height := 45 }

/-- The method `updateDino`. -/
def updateDino (g : DinoGame) : DinoGame :=
  { g with dino := dinoPhysics g.dino }

/-- The method `generateObstacle`.  The drawn `type` is `'cactus'` exactly
when the index `Math.floor(Math.random() * 2)` is `0`; every other index
takes the `else` branch, which pushes a bird. -/
def generateObstacle (m : Math) (g : DinoGame) : DinoGame :=
  if Math.floor (m.random g.randomCalls * 2) = 0 then
    { g with
      obstacles := g.obstacles ++
        [{ type := .cactus, x := canvasWidth, y := 310, width := 20, height := 40
           initialY := 0, wingPhase := 0, movementPhase := 0, shouldMove := false }]
      randomCalls := g.randomCalls + 1 }
  else
    let birdY : ℚ := if m.random (g.randomCalls + 1) > 0.5 then 250 else 200
    { g with
      obstacles := g.obstacles ++
        [{ type := .bird, x := canvasWidth, y := birdY, initialY := birdY
           width := 35, height := 25, wingPhase := 0
           movementPhase := m.random (g.randomCalls + 2) * m.PI * 2
           shouldMove := decide (g.score ≥ 200) }]
      randomCalls := g.randomCalls + 3 }

/-- The value `obstacleFrequency` computed in `updateObstacles`. -/
def obstacleFrequency (gameSpeed : ℚ) : ℚ := max 60 (150 - gameSpeed * 3)

/-- The first half of `updateObstacles`: the spawn timer and the spawn. -/
def spawnObstacle (m : Math) (g : DinoGame) : DinoGame :=
  let g := { g with obstacleTimer := g.obstacleTimer + 1 }
  if g.obstacleTimer > obstacleFrequency g.gameSpeed then
    { generateObstacle m g with obstacleTimer := 0 }
  else g

/-- The body of the move loop of `updateObstacles` up to the pruning test. -/
def moveObstacle (m : Math) (gameSpeed : ℚ) (o : Obstacle) : Obstacle :=
  let o := { o with x := o.x - gameSpeed }
  if o.type = .bird ∧ o.shouldMove then
    let o := { o with movementPhase := o.movementPhase + 0.05 }
    { o with y := o.initialY + m.sin o.movementPhase * 30 }
  else o

/-- The move loop of `updateObstacles`: it runs from the last index down to
the first, moving each obstacle and splicing it out when off screen. -/
def moveObstacles (m : Math) (gameSpeed : ℚ) (obstacles : List Obstacle) : List Obstacle :=
  obstacles.foldr
    (fun o rest =>
      if (moveObstacle m gameSpeed o).x + (moveObstacle m gameSpeed o).width < 0 then rest
      else moveObstacle m gameSpeed o :: rest)
    []

/-- The method `updateObstacles`. -/
def updateObstacles (m : Math) (g : DinoGame) : DinoGame :=
  { spawnObstacle m g with
    obstacles := moveObstacles m g.gameSpeed (spawnObstacle m g).obstacles }

/-- The body of the loop of `updateParticles` up to the pruning test. -/
def moveParticle (p : Particle) : Particle :=
  { p with x := p.x + p.velX, y := p.y + p.velY, velY := p.velY + 0.1, life := p.life - 1 }

/-- The method `updateParticles`: the loop runs from the last index down. -/
def updateParticles (g : DinoGame) : DinoGame :=
  { g with
    particles := g.particles.foldr
      (fun p rest => if (moveParticle p).life ≤ 0 then rest else moveParticle p :: rest)
      [] }

/-- The `for` loop of `updateClouds`: each cloud drifts left and wraps to the
right with two fresh random draws; the result carries the call count. -/
def driftClouds (m : Math) (gameSpeed : ℚ) : List Cloud → ℕ → List Cloud × ℕ
  | [], n => ([], n)
  | c :: cs, n =>
    if c.x - c.speed * (gameSpeed / baseSpeed) + c.width < 0 then
      ({ c with x := canvasWidth + m.random n * 200, y := m.random (n + 1) * 100 + 20 }
          :: (driftClouds m gameSpeed cs (n + 2)).1,
        (driftClouds m gameSpeed cs (n + 2)).2)
    else
      ({ c with x := c.x - c.speed * (gameSpeed / baseSpeed) }
          :: (driftClouds m gameSpeed cs n).1,
        (driftClouds m gameSpeed cs n).2)

/-- The tail of `updateClouds`: a cloud is added when the timer has passed
800, and the oldest one is shifted out when more than five remain. -/
def addCloud (m : Math) (g : DinoGame) : DinoGame :=
  if g.cloudTimer > 800 then
    let clouds := g.clouds ++
      [{ x := canvasWidth + m.random g.randomCalls * 200
         y := m.random (g.randomCalls + 1) * 100 + 20
         width := 60 + m.random (g.randomCalls + 2) * 40
         height := 30 + m.random (g.randomCalls + 3) * 20
         speed := 0.5 + m.random (g.randomCalls + 4) * 0.5 }]
    { g with
      clouds := if clouds.length > 5 then clouds.tail else clouds
      cloudTimer := 0
      randomCalls := g.randomCalls + 5 }
  else g

/-- The method `updateClouds`. -/
def updateClouds (m : Math) (g : DinoGame) : DinoGame :=
  addCloud m
    { g with
      cloudTimer := g.cloudTimer + 1
      clouds := (driftClouds m g.gameSpeed g.clouds g.randomCalls).1
      randomCalls := (driftClouds m g.gameSpeed g.clouds g.randomCalls).2 }

/-- The method `isColliding`.  The four sums are exact here; the code forms
them on doubles, where a sum can round back to its first summand when the
second is below half a unit in its last place.  At the magnitudes of the
hitboxes the game builds (coordinates below 1000, sizes from 16 to 36) the
comparisons come out the same. -/
def isColliding (rect1 rect2 : Rect) : Bool :=
  decide (rect1.x < rect2.x + rect2.width) &&
  decide (rect1.x + rect1.width > rect2.x) &&
  decide (rect1.y < rect2.y + rect2.height) &&
  decide (rect1.y + rect1.height > rect2.y)

/-- One iteration of the loop of `createExplosion`. -/
def pushExplosionParticle (m : Math) (x y : ℚ) (g : DinoGame) : DinoGame :=
  { g with
    particles := g.particles ++
      [{ x := x
         y := y
         velX := (m.random g.randomCalls - 0.5) * 8
         velY := (m.random (g.randomCalls + 1) - 0.5) * 8
         life := 60
         maxLife := 60
         size := m.random (g.randomCalls + 2) * 4 + 2
         color := some .ef4444 }]
    randomCalls := g.randomCalls + 3 }

/-- The method `createExplosion`: fifteen particles are pushed. -/
def createExplosion (m : Math) (x y : ℚ) (g : DinoGame) : DinoGame :=
  (pushExplosionParticle m x y)^[15] g

/-- The method `gameOver`. -/
def gameOver (m : Math) (g : DinoGame) : DinoGame :=
  let g := { g with gameState := .gameOver, gameOverElement := .block }
  let g :=
    if ⌊g.score⌋ > g.highScore then
      updateHighScore
        { g with
          highScore := ⌊g.score⌋
          localStorage := some ⌊g.score⌋
          setItemCalls := g.setItemCalls + 1 }
    else g
  createExplosion m (g.dino.x + g.dino.width / 2) (g.dino.y + g.dino.height / 2) g

/-- The rectangle `dinoBox` built by `checkCollisions`. -/
def dinoBox (d : Dino) : Rect :=
  { x := d.x + 8, y := d.y + 5, width := d.width - 16, height := d.height - 10 }

/-- The rectangle `obstacleBox` built by `checkCollisions`. -/
def obstacleBox (o : Obstacle) : Rect :=
  { x := o.x + 2, y := o.y + 2, width := o.width - 4, height := o.height - 4 }

/-- The `for` loop of `checkCollisions` over the obstacles still to test: the
first overlap calls `gameOver` and returns. -/
def checkCollisionsLoop (m : Math) (g : DinoGame) : List Obstacle → DinoGame
  | [] => g
  | o :: os =>
    if isColliding (dinoBox g.dino) (obstacleBox o) then gameOver m g
    else checkCollisionsLoop m g os

/-- The method `checkCollisions`. -/
def checkCollisions (m : Math) (g : DinoGame) : DinoGame :=
  checkCollisionsLoop m g g.obstacles

/-- The part of `update` before the collision check: the frame counter and
the four entity updates, in source order. -/
def advance (m : Math) (g : DinoGame) : DinoGame :=
  updateClouds m (updateParticles (updateObstacles m
    (updateDino { g with frameCount := g.frameCount + 1 })))

/-- The part of `update` after the collision check: score, difficulty and the
score display. -/
def updateDifficulty (g : DinoGame) : DinoGame :=
  let g := { g with score := g.score + 0.2 }
  let difficultyMultiplier : ℚ := 1 + Math.floor (g.score / 100) * 0.15
  let g := { g with gameSpeed := baseSpeed * difficultyMultiplier }
  let g := { g with gameSpeed := min g.gameSpeed (baseSpeed * 3) }
  updateScore g

/-- The method `update`; `deltaTime` is not read. -/
def update (m : Math) (_deltaTime : ℚ) (g : DinoGame) : DinoGame :=
  if g.gameState ≠ .playing then g
  else updateDifficulty (checkCollisions m (advance m g))

/-- The only state change made by `render`: `drawBird` advances the wing
phase of each bird. -/
def render (g : DinoGame) : DinoGame :=
  { g with
    obstacles := g.obstacles.map fun o =>
      if o.type = .bird then
        { o with wingPhase := o.wingPhase + (0.3 + g.gameSpeed / baseSpeed * 0.2) }
      else o }

/-- The method `gameLoop`, one callback at time `currentTime`. -/
def gameLoop (m : Math) (currentTime : ℚ) (g : DinoGame) : DinoGame :=
  let deltaTime := currentTime - g.lastTime
  let g := { g with lastTime := currentTime }
  let g := if deltaTime ≥ 1000 / 120 then update m deltaTime g else g
  if deltaTime ≥ 1000 / 60 then render g else g

/-- The first `if` of the `keydown` listener of `setupControls`; `jumpKey`
says whether the event has code `Space` or `ArrowUp`. -/
def keydownJump (m : Math) (jumpKey : Bool) (g : DinoGame) : DinoGame :=
  if jumpKey ∧ g.isJumping = false then handleJump m { g with isJumping := true } else g

/-- The second `if` of the `keydown` listener; `duckKey` says whether the
event has code `ArrowDown` or key `s` / `S`. -/
def keydownDuck (duckKey : Bool) (g : DinoGame) : DinoGame :=
  if duckKey ∧ g.isDucking = false then
    { g with isDucking := true, dino := { g.dino with ducking := true } }
  else g

/-- The `keydown` listener of `setupControls`. -/
def keydown (m : Math) (jumpKey duckKey : Bool) (g : DinoGame) : DinoGame :=
  keydownDuck duckKey (keydownJump m jumpKey g)

/-- The `keyup` listener of `setupControls`. -/
def keyup (jumpKey duckKey : Bool) (g : DinoGame) : DinoGame :=
  let g := if jumpKey then { g with isJumping := false } else g
  if duckKey then { g with isDucking := false, dino := { g.dino with ducking := false } }
  else g

end DinoGame

/-- The events delivered to the game: key presses and releases, a click or a
touch on the canvas, and an animation-frame callback with its timestamp. -/
inductive Event where
  | keydown (jumpKey duckKey : Bool)
  | keyup (jumpKey duckKey : Bool)
  | click
  | touchstart
  | animationFrame (currentTime : ℚ)

namespace DinoGame

/-- The effect of one event on the game. -/
def step (m : Math) (e : Event) (g : DinoGame) : DinoGame :=
  match e with
  | .keydown j d => keydown m j d g
  | .keyup j d => keyup j d g
  | .click => handleJump m g
  | .touchstart => handleJump m g
  | .animationFrame t => gameLoop m t g

/-- The effect of a sequence of events, the first event first. -/
def run (m : Math) (es : List Event) (g : DinoGame) : DinoGame :=
  es.foldl (fun g e => step m e g) g

/-- The states the game can be in: those a sequence of events produces from
a freshly constructed game. -/
def Reachable (m : Math) (g : DinoGame) : Prop :=
  ∃ (page : Page) (stored : Option ℤ) (es : List Event), g = run m es (DinoGame.new m page stored)

end DinoGame

/-! ## Auxiliary definitions for the statements -/

/-- The events that carry a jump intent: a click, a touch, or a key press
with a jump key. -/
def Event.isJumpIntent : Event → Bool
  | .keydown jumpKey _ => jumpKey
  | .click => true
  | .touchstart => true
  | _ => false

namespace DinoGame

/-- The speed assigned at the end of `update`, as a function of the score
just accumulated (lines 198 to 202 of `script.js`). -/
def speedForScore (score : ℚ) : ℚ :=
  min (baseSpeed * (1 + Math.floor (score / 100) * 0.15)) (baseSpeed * 3)

/-- A host whose random draws are all `0` and whose sine is constantly `0`. -/
def mathZero : Math := { random := fun _ => 0, sin := fun _ => 0, PI := 3 }

/-- A page showing the hint, hiding the banner, with score text `0`. -/
def page0 : Page := { controlHint := .block, gameOverElement := .none, scoreElement := 0 }

/-- The first `n` animation frames, ten milliseconds apart: each of them
runs `update` and none of them renders. -/
def frames (n : ℕ) : List Event :=
  (List.range n).map fun k => Event.animationFrame (10 * ((k : ℚ) + 1))

/-- The duck key is pressed and held, a click starts the game, and `n`
frames follow. -/
def duckedRun (n : ℕ) : DinoGame :=
  run mathZero (Event.keydown false true :: Event.click :: frames n)
    (DinoGame.new mathZero page0 none)

/-- A click starts the game and `n` frames follow with no further input. -/
def idleRun (n : ℕ) : DinoGame :=
  run mathZero (Event.click :: frames n) (DinoGame.new mathZero page0 none)

/-- The writes the program makes to `this.dino`: the physics step of
`updateDino`, the duck flag set or cleared by the key listeners, the impulse
of `jump`, and the assignments of `resetGame`. -/
inductive DinoWrite : Dino → Dino → Prop where
  | physics (d : Dino) : DinoWrite d (dinoPhysics d)
  | duck (d : Dino) (b : Bool) : DinoWrite d { d with ducking := b }
  | impulse (d : Dino) (h : d.jumping = false) :
      DinoWrite d { d with velY := -jumpPower, jumping := true }
  | reset (d : Dino) :
      DinoWrite d { d with y := 300, velY := 0, jumping := false, ducking := false }

/-- A click starts the game, a second click jumps at once, and `n` frames
follow. -/
def jumpRun (n : ℕ) : DinoGame :=
  run mathZero (Event.click :: Event.click :: frames n) (DinoGame.new mathZero page0 none)

/-- A host whose random draws are all `3/4`, so that every obstacle is a
bird at height 250, and whose sine is constantly `0`. -/
def mathBird : Math := { random := fun _ => 3 / 4, sin := fun _ => 0, PI := 3 }

/-- A click starts the game on the host `mathBird` and `n` frames follow. -/
def birdRun (n : ℕ) : DinoGame :=
  run mathBird (Event.click :: frames n) (DinoGame.new mathBird page0 none)

/-- The obstacles `generateObstacle` can push: at the right edge, a cactus
with its fixed geometry or a bird at one of its two heights. -/
def FreshObstacle (o : Obstacle) : Prop :=
  o.x = 800 ∧
  ((o.type = .cactus ∧ o.y = 310 ∧ o.width = 20 ∧ o.height = 40) ∨
    (o.type = .bird ∧ (o.y = 250 ∨ o.y = 200) ∧ o.initialY = o.y ∧ o.width = 35 ∧
      o.height = 25))

/-- The avatar is on the ground with no velocity, or has just taken the
impulse in the ducked pose, or is `k` ticks into a jump from y = 300. -/
def OnJumpArc (d : Dino) : Prop :=
  (d.jumping = false ∧ d.velY = 0 ∧ (d.y = 300 ∨ d.y = 320)) ∨
  (d.jumping = true ∧ d.velY = -16 ∧ d.y = 320) ∨
  (d.jumping = true ∧
    ∃ k : ℕ, k ≤ 38 ∧ d.velY = -16 + 0.8 * (k : ℚ) ∧ d.y = 300 - 0.4 * (k : ℚ) * (39 - (k : ℚ)))

/-- The `n` animation frames after the first `start` ones, ten milliseconds
apart. -/
def framesFrom (start n : ℕ) : List Event :=
  (List.range n).map fun k => Event.animationFrame (10 * (((start + k : ℕ) : ℚ) + 1))

/-- A click starts the game, a second click after 177 frames jumps, and `n`
more frames follow. -/
def lateJumpRun (n : ℕ) : DinoGame :=
  run mathZero (Event.click :: (frames 177 ++ Event.click :: framesFrom 177 n))
    (DinoGame.new mathZero page0 none)

/-- The invariant behind the spacing of obstacles: the speed is the one for
the score, the spawn timer is between 0 and 126, there is at most one
obstacle, and that obstacle, of width at most 35, has moved `obstacleTimer + 1`
times at no less than the speed for the score at which it was spawned. -/
def SpawnInvariant (g : DinoGame) : Prop :=
  0 ≤ g.score ∧ g.gameSpeed = speedForScore g.score ∧
  0 ≤ g.obstacleTimer ∧ g.obstacleTimer ≤ 126 ∧ g.obstacles.length ≤ 1 ∧
  ∀ o ∈ g.obstacles,
    o.width ≤ 35 ∧ 0 ≤ g.score - 0.2 * (g.obstacleTimer + 1) ∧
      o.x ≤ 800 - (g.obstacleTimer + 1) * speedForScore (g.score - 0.2 * (g.obstacleTimer + 1))

/-! ## Field lemmas -/

theorem iterate_field {α β : Type} (f : α → α) (p : α → β) (h : ∀ a, p (f a) = p a)
    (n : ℕ) (a : α) : p (f^[n] a) = p a := by
  induction n generalizing a with
  | zero => rfl
  | succ n ih => rw [Function.iterate_succ_apply, ih, h]

theorem createExplosion_gameState (m : Math) (x y : ℚ) (g : DinoGame) :
    (createExplosion m x y g).gameState = g.gameState := by
  unfold createExplosion
  exact iterate_field (pushExplosionParticle m x y) DinoGame.gameState (fun _ => rfl) 15 g

theorem gameOver_gameState (m : Math) (g : DinoGame) :
    (gameOver m g).gameState = .gameOver := by
  unfold gameOver
  simp only [createExplosion_gameState]
  split <;> rfl

theorem checkCollisionsLoop_eq (m : Math) (g : DinoGame) (os : List Obstacle) :
    checkCollisionsLoop m g os =
      if os.any (fun o => isColliding (dinoBox g.dino) (obstacleBox o)) then gameOver m g
      else g := by
  induction os with
  | nil => simp [checkCollisionsLoop]
  | cons o os ih =>
    by_cases h : isColliding (dinoBox g.dino) (obstacleBox o) = true
    · simp [checkCollisionsLoop, h]
    · simp [checkCollisionsLoop, h, ih]

theorem advance_gameState (m : Math) (g : DinoGame) :
    (advance m g).gameState = g.gameState := by
  unfold advance updateClouds addCloud updateParticles updateObstacles spawnObstacle
    generateObstacle updateDino
  dsimp only
  split_ifs <;> rfl

theorem advance_dino (m : Math) (g : DinoGame) :
    (advance m g).dino = dinoPhysics g.dino := by
  unfold advance updateClouds addCloud updateParticles updateObstacles spawnObstacle
    generateObstacle updateDino
  dsimp only
  split_ifs <;> rfl

theorem gameOver_dino (m : Math) (g : DinoGame) : (gameOver m g).dino = g.dino := by
  unfold gameOver createExplosion
  dsimp only
  rw [iterate_field (pushExplosionParticle m _ _) DinoGame.dino (fun _ => rfl)]
  split_ifs <;> rfl

theorem checkCollisions_dino (m : Math) (g : DinoGame) :
    (checkCollisions m g).dino = g.dino := by
  unfold checkCollisions
  rw [checkCollisionsLoop_eq]
  split_ifs
  · exact gameOver_dino m g
  · rfl

theorem update_dino (m : Math) (dt : ℚ) (g : DinoGame) :
    (update m dt g).dino = if g.gameState = .playing then dinoPhysics g.dino else g.dino := by
  unfold update
  by_cases h : g.gameState = .playing
  · simp only [h, ne_eq, not_true_eq_false, if_false, if_true]
    show (checkCollisions m (advance m g)).dino = _
    rw [checkCollisions_dino, advance_dino]
  · simp only [h, ne_eq, not_false_eq_true, if_true, if_false]

theorem update_gameState (m : Math) (dt : ℚ) (g : DinoGame) :
    (update m dt g).gameState =
      if g.gameState = .playing then (checkCollisions m (advance m g)).gameState
      else g.gameState := by
  unfold update
  by_cases h : g.gameState = .playing
  · simp only [h, ne_eq, not_true_eq_false, if_false, if_true]
    rfl
  · simp only [h, ne_eq, not_false_eq_true, if_true, if_false]


theorem createParticles_dino (m : Math) (x y : ℚ) (g : DinoGame) :
    (createParticles m x y g).dino = g.dino := rfl

theorem createParticles_gameState (m : Math) (x y : ℚ) (g : DinoGame) :
    (createParticles m x y g).gameState = g.gameState := rfl

theorem render_dino (g : DinoGame) : (render g).dino = g.dino := rfl

theorem render_gameState (g : DinoGame) : (render g).gameState = g.gameState := rfl

theorem gameLoop_dino (m : Math) (t : ℚ) (g : DinoGame) :
    (gameLoop m t g).dino = g.dino ∨ (gameLoop m t g).dino = dinoPhysics g.dino := by
  unfold gameLoop
  dsimp only
  by_cases h1 : t - g.lastTime ≥ 1000 / 120 <;> by_cases h2 : t - g.lastTime ≥ 1000 / 60 <;>
    simp only [h1, h2, if_true, if_false, render_dino, update_dino] <;>
    (try split_ifs) <;> simp

theorem jump_dino (m : Math) (g : DinoGame) :
    (jump m g).dino =
      if g.dino.jumping = false then { g.dino with velY := -jumpPower, jumping := true }
      else g.dino := by
  unfold jump
  cases h : g.dino.jumping <;> simp [createParticles_dino]

theorem handleJump_dino (m : Math) (g : DinoGame) :
    (handleJump m g).dino = g.dino ∨
    (g.dino.jumping = false ∧
      (handleJump m g).dino = { g.dino with velY := -jumpPower, jumping := true }) ∨
    (handleJump m g).dino =
      { g.dino with y := 300, velY := 0, jumping := false, ducking := false } := by
  unfold handleJump
  split_ifs with h1 h2 h3
  · left; rfl
  · right; left
    refine ⟨h2.2, ?_⟩
    rw [jump_dino, if_pos h2.2]
  · right; right; rfl
  · left; rfl

/-! ## Reachable states -/

theorem run_cons (m : Math) (e : Event) (es : List Event) (g : DinoGame) :
    run m (e :: es) g = run m es (step m e g) := rfl

theorem run_append (m : Math) (es es' : List Event) (g : DinoGame) :
    run m (es ++ es') g = run m es' (run m es g) := by
  unfold run
  rw [List.foldl_append]

theorem reachable_new (m : Math) (page : Page) (stored : Option ℤ) :
    Reachable m (DinoGame.new m page stored) :=
  ⟨page, stored, [], rfl⟩

theorem reachable_step (m : Math) (e : Event) (g : DinoGame) (h : Reachable m g) :
    Reachable m (step m e g) := by
  obtain ⟨page, stored, es, rfl⟩ := h
  exact ⟨page, stored, es ++ [e], by rw [run_append]; rfl⟩

theorem reachable_run (m : Math) (es : List Event) (page : Page) (stored : Option ℤ) :
    Reachable m (run m es (DinoGame.new m page stored)) :=
  ⟨page, stored, es, rfl⟩

/-- Induction over the reachable states: a property of every freshly
constructed game that every event preserves holds in every reachable state. -/
theorem reachable_induction (m : Math) (P : DinoGame → Prop)
    (hnew : ∀ page stored, P (DinoGame.new m page stored))
    (hstep : ∀ e g, P g → P (step m e g)) :
    ∀ g, Reachable m g → P g := by
  have hrun : ∀ (es : List Event) (g : DinoGame), P g → P (run m es g) := by
    intro es
    induction es with
    | nil => intro g hg; exact hg
    | cons e es ih => intro g hg; rw [run_cons]; exact ih _ (hstep e g hg)
  rintro g ⟨page, stored, es, rfl⟩
  exact hrun es _ (hnew page stored)

theorem handleJump_dinoWrite (m : Math) (g : DinoGame) :
    Relation.ReflTransGen DinoWrite g.dino (handleJump m g).dino := by
  rcases handleJump_dino m g with h | ⟨hj, h⟩ | h <;> rw [h]
  · exact Relation.ReflTransGen.single (DinoWrite.impulse _ hj)
  · exact Relation.ReflTransGen.single (DinoWrite.reset _)

/-- Every event changes `this.dino` by a sequence of the writes above. -/
theorem step_dinoWrite (m : Math) (e : Event) (g : DinoGame) :
    Relation.ReflTransGen DinoWrite g.dino (step m e g).dino := by
  cases e with
  | keydown j d =>
    have hj : Relation.ReflTransGen DinoWrite g.dino (keydownJump m j g).dino := by
      unfold keydownJump
      split_ifs
      · exact handleJump_dinoWrite m { g with isJumping := true }
      · exact Relation.ReflTransGen.refl
    show Relation.ReflTransGen DinoWrite g.dino (keydownDuck d (keydownJump m j g)).dino
    generalize keydownJump m j g = g' at hj
    unfold keydownDuck
    split_ifs
    · exact Relation.ReflTransGen.tail hj (DinoWrite.duck _ true)
    · exact hj
  | keyup j d =>
    show Relation.ReflTransGen DinoWrite g.dino (keyup j d g).dino
    cases j <;> cases d <;>
      first
      | exact Relation.ReflTransGen.refl
      | exact Relation.ReflTransGen.single (DinoWrite.duck _ false)
  | click => exact handleJump_dinoWrite m g
  | touchstart => exact handleJump_dinoWrite m g
  | animationFrame t =>
    show Relation.ReflTransGen DinoWrite g.dino (gameLoop m t g).dino
    rcases gameLoop_dino m t g with h | h <;> rw [h]
    exact Relation.ReflTransGen.single (DinoWrite.physics _)

/-- A property of the avatar that holds for the constructed avatar and is
kept by every write holds in every reachable state. -/
theorem dino_invariant (m : Math) (P : Dino → Prop)
    (hnew : P { x := 80, y := 300, width := 50, height := 45, velY := 0
                jumping := false, ducking := false })
    (hwrite : ∀ d d', DinoWrite d d' → P d → P d') :
    ∀ g, Reachable m g → P g.dino := by
  apply reachable_induction m (fun g => P g.dino)
  · intro page stored
    exact hnew
  · intro e g hg
    have h := step_dinoWrite m e g
    generalize (step m e g).dino = d' at h
    induction h with
    | refl => exact hg
    | tail _ hw ih => exact hwrite _ _ hw ih

/-! ## The avatar in reachable states -/

theorem dinoPhysics_y (d : Dino) :
    (dinoPhysics d).y ≤ 300 ∨ ((dinoPhysics d).y = 320 ∧ (dinoPhysics d).height = 30) := by
  unfold dinoPhysics
  dsimp only
  by_cases hground : d.y + (d.velY + gravity) ≥ 300
  · simp only [hground, if_true]
    by_cases hduck : d.ducking = true
    · right
      simp [hduck]
    · left
      simp [hduck]
  · simp only [hground, if_false]
    by_cases hpose : d.ducking = true ∧ d.jumping = false
    · right
      simp [hpose]
    · left
      simp only [hpose, if_false]
      split_ifs
      · exact le_refl _
      · exact le_of_lt (not_le.mp hground)

theorem reachable_dino_y (m : Math) (g : DinoGame) (hr : Reachable m g) :
    g.dino.y ≤ 300 ∨ (g.dino.y = 320 ∧ g.dino.height = 30) := by
  refine dino_invariant m (fun d => d.y ≤ 300 ∨ (d.y = 320 ∧ d.height = 30)) ?_ ?_ g hr
  · left
    exact le_refl _
  · intro d d' hw hd
    cases hw with
    | physics => exact dinoPhysics_y d
    | duck b => exact hd
    | impulse h => exact hd
    | reset => left; exact le_refl _

theorem dinoPhysics_x (d : Dino) :
    (dinoPhysics d).x = d.x ∧ (dinoPhysics d).width = d.width := by
  unfold dinoPhysics
  dsimp only
  split_ifs <;> exact ⟨rfl, rfl⟩

theorem reachable_dino_x (m : Math) (g : DinoGame) (hr : Reachable m g) :
    g.dino.x = 80 ∧ g.dino.width = 50 := by
  refine dino_invariant m (fun d => d.x = 80 ∧ d.width = 50) ⟨rfl, rfl⟩ ?_ g hr
  intro d d' hw hd
  cases hw with
  | physics => rw [(dinoPhysics_x d).1, (dinoPhysics_x d).2]; exact hd
  | duck b => exact hd
  | impulse h => exact hd
  | reset => exact hd

/-- The run with the duck key held ends in a collision with the first
cactus on frame 212: the spawn timer passes 126 on frame 127, the draw `0`
makes the obstacle a cactus, which is moved on that same frame to x = 792
and then by 8 per frame, so it is at x = 120 on frame 211 (no overlap yet)
and at x = 112 on frame 212, inside the window 70 < x < 120. -/
theorem duckedRun_crash :
    (duckedRun 212).gameState = .gameOver ∧ (duckedRun 212).cloudTimer = 212 ∧
      (duckedRun 212).dino.height = 30 := by
  decide!

/-- What `generateObstacle` does whichever kind it draws: one obstacle at the
right edge is appended and at least one random number is consumed. -/
theorem generateObstacle_spec (m : Math) (g : DinoGame) :
    ∃ o : Obstacle, o.x = 800 ∧ (generateObstacle m g).obstacles = g.obstacles ++ [o] ∧
      (generateObstacle m g).randomCalls > g.randomCalls := by
  unfold generateObstacle
  by_cases h : Math.floor (m.random g.randomCalls * 2) = 0
  · rw [if_pos h]
    exact ⟨_, rfl, rfl, Nat.lt_succ_self _⟩
  · rw [if_neg h]
    exact ⟨_, rfl, rfl, Nat.lt_add_of_pos_right (by decide)⟩

/-! ## The phase -/

theorem checkCollisions_gameState (m : Math) (g : DinoGame) :
    (checkCollisions m g).gameState =
      if g.obstacles.any (fun o => isColliding (dinoBox g.dino) (obstacleBox o)) then .gameOver
      else g.gameState := by
  unfold checkCollisions
  rw [checkCollisionsLoop_eq]
  split_ifs
  · exact gameOver_gameState m g
  · rfl

theorem jump_gameState (m : Math) (g : DinoGame) : (jump m g).gameState = g.gameState := by
  unfold jump
  split_ifs
  · rfl
  · rfl

theorem handleJump_phase (m : Math) (g : DinoGame) :
    (handleJump m g).gameState = g.gameState ∨
    (g.gameState = .waiting ∧ (handleJump m g).gameState = .playing) ∨
    (g.gameState = .gameOver ∧ (handleJump m g).gameState = .waiting) := by
  unfold handleJump
  split_ifs with h1 h2 h3
  · right; left
    exact ⟨h1, rfl⟩
  · left
    exact jump_gameState m g
  · right; right
    exact ⟨h3, rfl⟩
  · left; rfl

theorem keydownDuck_gameState (d : Bool) (g : DinoGame) :
    (keydownDuck d g).gameState = g.gameState := by
  unfold keydownDuck
  split_ifs <;> rfl

theorem keyup_gameState (j d : Bool) (g : DinoGame) :
    (keyup j d g).gameState = g.gameState := by
  unfold keyup
  dsimp only
  split_ifs <;> rfl

theorem gameLoop_phase (m : Math) (t : ℚ) (g : DinoGame) :
    (gameLoop m t g).gameState = g.gameState ∨
    (g.gameState = .playing ∧ t - g.lastTime ≥ 1000 / 120 ∧
      (gameLoop m t g).gameState =
        (checkCollisions m (advance m { g with lastTime := t })).gameState) := by
  have hupd : (update m (t - g.lastTime) { g with lastTime := t }).gameState =
      if g.gameState = .playing then
        (checkCollisions m (advance m { g with lastTime := t })).gameState
      else g.gameState := update_gameState m _ _
  unfold gameLoop
  dsimp only
  by_cases h1 : t - g.lastTime ≥ 1000 / 120
  · by_cases hplay : g.gameState = .playing
    · right
      refine ⟨hplay, h1, ?_⟩
      rw [if_pos hplay] at hupd
      simp only [h1, if_true]
      split_ifs
      · rw [render_gameState, hupd]
      · rw [hupd]
    · left
      rw [if_neg hplay] at hupd
      simp only [h1, if_true]
      split_ifs
      · rw [render_gameState, hupd]
      · rw [hupd]
  · left
    simp only [h1, if_false]
    split_ifs <;> rfl

/-! ## The best score -/

theorem createExplosion_highScore (m : Math) (x y : ℚ) (g : DinoGame) :
    (createExplosion m x y g).highScore = g.highScore := by
  unfold createExplosion
  exact iterate_field (pushExplosionParticle m x y) DinoGame.highScore (fun _ => rfl) 15 g

theorem createExplosion_localStorage (m : Math) (x y : ℚ) (g : DinoGame) :
    (createExplosion m x y g).localStorage = g.localStorage := by
  unfold createExplosion
  exact iterate_field (pushExplosionParticle m x y) DinoGame.localStorage (fun _ => rfl) 15 g

theorem createExplosion_setItemCalls (m : Math) (x y : ℚ) (g : DinoGame) :
    (createExplosion m x y g).setItemCalls = g.setItemCalls := by
  unfold createExplosion
  exact iterate_field (pushExplosionParticle m x y) DinoGame.setItemCalls (fun _ => rfl) 15 g

theorem gameOver_beaten (m : Math) (g : DinoGame) (h : ⌊g.score⌋ > g.highScore) :
    (gameOver m g).highScore = ⌊g.score⌋ ∧ (gameOver m g).localStorage = some ⌊g.score⌋ ∧
      (gameOver m g).setItemCalls = g.setItemCalls + 1 := by
  unfold gameOver
  dsimp only
  rw [createExplosion_highScore, createExplosion_localStorage, createExplosion_setItemCalls,
    if_pos h]
  exact ⟨rfl, rfl, rfl⟩

theorem gameOver_not_beaten (m : Math) (g : DinoGame) (h : ¬ ⌊g.score⌋ > g.highScore) :
    (gameOver m g).highScore = g.highScore ∧ (gameOver m g).localStorage = g.localStorage ∧
      (gameOver m g).setItemCalls = g.setItemCalls := by
  unfold gameOver
  dsimp only
  rw [createExplosion_highScore, createExplosion_localStorage, createExplosion_setItemCalls,
    if_neg h]
  exact ⟨rfl, rfl, rfl⟩

/-! ## The pruning loops -/

theorem moveObstacles_eq (m : Math) (v : ℚ) (os : List Obstacle) :
    moveObstacles m v os =
      (os.map (moveObstacle m v)).filter (fun o => decide (¬ o.x + o.width < 0)) := by
  unfold moveObstacles
  induction os with
  | nil => rfl
  | cons o os ih =>
    rw [List.foldr_cons, ih, List.map_cons, List.filter_cons]
    by_cases h : (moveObstacle m v o).x + (moveObstacle m v o).width < 0
    · simp [h]
    · simp [h]

theorem moveObstacles_append (m : Math) (v : ℚ) (os os' : List Obstacle) :
    moveObstacles m v (os ++ os') = moveObstacles m v os ++ moveObstacles m v os' := by
  simp only [moveObstacles_eq, List.map_append, List.filter_append]

theorem moveObstacle_x (m : Math) (v : ℚ) (o : Obstacle) :
    (moveObstacle m v o).x = o.x - v ∧ (moveObstacle m v o).width = o.width ∧
      (moveObstacle m v o).height = o.height ∧ (moveObstacle m v o).type = o.type ∧
      (moveObstacle m v o).initialY = o.initialY := by
  unfold moveObstacle
  dsimp only
  split_ifs <;> exact ⟨rfl, rfl, rfl, rfl, rfl⟩

theorem mem_moveObstacles (m : Math) (v : ℚ) (os : List Obstacle) (o' : Obstacle)
    (h : o' ∈ moveObstacles m v os) :
    (∃ o ∈ os, o' = moveObstacle m v o) ∧ ¬ o'.x + o'.width < 0 := by
  rw [moveObstacles_eq, List.mem_filter, List.mem_map] at h
  obtain ⟨⟨o, ho, rfl⟩, hkeep⟩ := h
  exact ⟨⟨o, ho, rfl⟩, of_decide_eq_true hkeep⟩

theorem updateParticles_eq (g : DinoGame) :
    (updateParticles g).particles =
      (g.particles.map moveParticle).filter (fun p => decide (0 < p.life)) := by
  unfold updateParticles
  dsimp only
  induction g.particles with
  | nil => rfl
  | cons p ps ih =>
    rw [List.foldr_cons, ih, List.map_cons, List.filter_cons]
    by_cases h : (moveParticle p).life ≤ 0
    · simp [h, not_lt.mpr h]
    · simp [h, not_le.mp h]

/-! ## Invariants of the whole state -/

/-- A property kept by each part of `update` is kept by `update`. -/
theorem update_preserves (m : Math) (Q : DinoGame → Prop)
    (hframe : ∀ g, Q g → Q { g with frameCount := g.frameCount + 1 })
    (hdino : ∀ g, Q g → Q (updateDino g))
    (hobstacles : ∀ g, Q g → Q (updateObstacles m g))
    (hparticles : ∀ g, Q g → Q (updateParticles g))
    (hclouds : ∀ g, Q g → Q (updateClouds m g))
    (hover : ∀ g, Q g → Q (gameOver m g))
    (hdifficulty : ∀ g, Q g → Q (updateDifficulty g)) :
    ∀ (dt : ℚ) (g : DinoGame), Q g → Q (update m dt g) := by
  intro dt g hg
  unfold update
  by_cases h : g.gameState = .playing
  · rw [if_neg (not_not.mpr h)]
    apply hdifficulty
    unfold checkCollisions
    rw [checkCollisionsLoop_eq]
    have hadv : Q (advance m g) :=
      hclouds _ (hparticles _ (hobstacles _ (hdino _ (hframe _ hg))))
    split_ifs
    · exact hover _ hadv
    · exact hadv
  · rw [if_pos h]
    exact hg

/-- A property kept by each handler the events call is kept by every
event. -/
theorem step_preserves (m : Math) (Q : DinoGame → Prop)
    (hflag : ∀ g b, Q g → Q { g with isJumping := b })
    (hduck : ∀ g b, Q g → Q { g with isDucking := b, dino := { g.dino with ducking := b } })
    (htime : ∀ g t, Q g → Q { g with lastTime := t })
    (hstart : ∀ g, g.gameState = .waiting → Q g → Q (startGame g))
    (hjump : ∀ g, g.gameState = .playing → g.dino.jumping = false → Q g → Q (jump m g))
    (hreset : ∀ g, g.gameState = .gameOver → Q g → Q (resetGame g))
    (hupdate : ∀ dt g, Q g → Q (update m dt g))
    (hrender : ∀ g, Q g → Q (render g)) :
    ∀ (e : Event) (g : DinoGame), Q g → Q (step m e g) := by
  have hhandle : ∀ g, Q g → Q (handleJump m g) := by
    intro g hg
    unfold handleJump
    split_ifs with h1 h2 h3
    · exact hstart g h1 hg
    · exact hjump g h2.1 h2.2 hg
    · exact hreset g h3 hg
    · exact hg
  intro e g hg
  cases e with
  | keydown j d =>
    have h1 : Q (keydownJump m j g) := by
      unfold keydownJump
      split_ifs
      · exact hhandle _ (hflag g true hg)
      · exact hg
    show Q (keydownDuck d (keydownJump m j g))
    generalize keydownJump m j g = g' at h1
    unfold keydownDuck
    split_ifs
    · exact hduck g' true h1
    · exact h1
  | keyup j d =>
    show Q (keyup j d g)
    cases j <;> cases d
    · exact hg
    · exact hduck g false hg
    · exact hflag g false hg
    · exact hduck _ false (hflag g false hg)
  | click => exact hhandle g hg
  | touchstart => exact hhandle g hg
  | animationFrame t =>
    show Q (gameLoop m t g)
    unfold gameLoop
    dsimp only
    have h1 : Q (if t - g.lastTime ≥ 1000 / 120 then
        update m (t - g.lastTime) { g with lastTime := t } else { g with lastTime := t }) := by
      split_ifs
      · exact hupdate _ _ (htime g t hg)
      · exact htime g t hg
    split_ifs at h1 ⊢
    · exact hrender _ h1
    · exact hrender _ h1
    · exact h1
    · exact h1

/-- A property of the constructed game that every handler keeps holds in
every reachable state. -/
theorem reachable_invariant (m : Math) (Q : DinoGame → Prop)
    (hnew : ∀ page stored, Q (DinoGame.new m page stored))
    (hflag : ∀ g b, Q g → Q { g with isJumping := b })
    (hduck : ∀ g b, Q g → Q { g with isDucking := b, dino := { g.dino with ducking := b } })
    (htime : ∀ g t, Q g → Q { g with lastTime := t })
    (hstart : ∀ g, g.gameState = .waiting → Q g → Q (startGame g))
    (hjump : ∀ g, g.gameState = .playing → g.dino.jumping = false → Q g → Q (jump m g))
    (hreset : ∀ g, g.gameState = .gameOver → Q g → Q (resetGame g))
    (hupdate : ∀ dt g, Q g → Q (update m dt g))
    (hrender : ∀ g, Q g → Q (render g)) :
    ∀ g, Reachable m g → Q g :=
  reachable_induction m Q hnew
    (step_preserves m Q hflag hduck htime hstart hjump hreset hupdate hrender)

/-! ## Obstacles and clouds -/

theorem generateObstacle_fresh (m : Math) (g : DinoGame) :
    ∃ o : Obstacle, FreshObstacle o ∧ (generateObstacle m g).obstacles = g.obstacles ++ [o] := by
  unfold generateObstacle
  by_cases h : Math.floor (m.random g.randomCalls * 2) = 0
  · rw [if_pos h]
    exact ⟨_, ⟨rfl, Or.inl ⟨rfl, rfl, rfl, rfl⟩⟩, rfl⟩
  · rw [if_neg h]
    by_cases hy : m.random (g.randomCalls + 1) > 0.5
    · refine ⟨_, ⟨rfl, Or.inr ⟨rfl, Or.inl ?_, rfl, rfl, rfl⟩⟩, rfl⟩
      dsimp only
      rw [if_pos hy]
    · refine ⟨_, ⟨rfl, Or.inr ⟨rfl, Or.inr ?_, rfl, rfl, rfl⟩⟩, rfl⟩
      dsimp only
      rw [if_neg hy]

/-- The spawn half of `updateObstacles` appends at most one fresh obstacle. -/
theorem spawnObstacle_obstacles (m : Math) (g : DinoGame) :
    ∃ sp : List Obstacle, (∀ o ∈ sp, FreshObstacle o) ∧
      (spawnObstacle m g).obstacles = g.obstacles ++ sp := by
  unfold spawnObstacle
  dsimp only
  by_cases h : g.obstacleTimer + 1 > obstacleFrequency g.gameSpeed
  · rw [if_pos h]
    obtain ⟨o, ho, heq⟩ := generateObstacle_fresh m { g with obstacleTimer := g.obstacleTimer + 1 }
    refine ⟨[o], ?_, heq⟩
    intro o' ho'
    rw [List.mem_singleton] at ho'
    rw [ho']
    exact ho
  · rw [if_neg h]
    exact ⟨[], fun _ hm => absurd hm (List.not_mem_nil _), (List.append_nil _).symm⟩

theorem moveObstacles_cons (m : Math) (v : ℚ) (o : Obstacle) (os : List Obstacle) :
    moveObstacles m v (o :: os) =
      (if (moveObstacle m v o).x + (moveObstacle m v o).width < 0 then []
        else [moveObstacle m v o]) ++ moveObstacles m v os := by
  unfold moveObstacles
  rw [List.foldr_cons]
  split_ifs <;> rfl

theorem driftClouds_length (m : Math) (v : ℚ) (cs : List Cloud) (n : ℕ) :
    (driftClouds m v cs n).1.length = cs.length := by
  induction cs generalizing n with
  | nil => rfl
  | cons c cs ih =>
    unfold driftClouds
    split_ifs
    · rw [List.length_cons, List.length_cons, ih]
    · rw [List.length_cons, List.length_cons, ih]

theorem updateClouds_idle (m : Math) (g : DinoGame) (h : ¬ g.cloudTimer + 1 > 800) :
    (updateClouds m g).clouds = (driftClouds m g.gameSpeed g.clouds g.randomCalls).1 := by
  unfold updateClouds addCloud
  dsimp only
  rw [if_neg h]

theorem updateClouds_add (m : Math) (g : DinoGame) (h : g.cloudTimer + 1 > 800) :
    ∃ c : Cloud, (updateClouds m g).clouds =
      if ((driftClouds m g.gameSpeed g.clouds g.randomCalls).1 ++ [c]).length > 5 then
        ((driftClouds m g.gameSpeed g.clouds g.randomCalls).1 ++ [c]).tail
      else (driftClouds m g.gameSpeed g.clouds g.randomCalls).1 ++ [c] := by
  unfold updateClouds addCloud
  dsimp only
  rw [if_pos h]
  exact ⟨_, rfl⟩

theorem updateClouds_length_le (m : Math) (g : DinoGame) (h : g.clouds.length ≤ 5) :
    (updateClouds m g).clouds.length ≤ 5 := by
  by_cases ht : g.cloudTimer + 1 > 800
  · obtain ⟨c, hc⟩ := updateClouds_add m g ht
    rw [hc]
    split_ifs with h5
    · rw [List.length_tail, List.length_append, driftClouds_length, List.length_singleton]
      omega
    · exact not_lt.mp h5
  · rw [updateClouds_idle m g ht, driftClouds_length]
    exact h

theorem createExplosion_clouds (m : Math) (x y : ℚ) (g : DinoGame) :
    (createExplosion m x y g).clouds = g.clouds := by
  unfold createExplosion
  exact iterate_field (pushExplosionParticle m x y) DinoGame.clouds (fun _ => rfl) 15 g

theorem gameOver_clouds (m : Math) (g : DinoGame) : (gameOver m g).clouds = g.clouds := by
  unfold gameOver
  dsimp only
  rw [createExplosion_clouds]
  split_ifs <;> rfl

theorem updateObstacles_clouds (m : Math) (g : DinoGame) :
    (updateObstacles m g).clouds = g.clouds := by
  unfold updateObstacles spawnObstacle generateObstacle
  dsimp only
  split_ifs <;> rfl

theorem jump_clouds (m : Math) (g : DinoGame) : (jump m g).clouds = g.clouds := by
  unfold jump
  split_ifs <;> rfl

theorem reachable_clouds (m : Math) (g : DinoGame) (hr : Reachable m g) :
    g.clouds.length ≤ 5 := by
  refine reachable_invariant m (fun g => g.clouds.length ≤ 5) ?_ ?_ ?_ ?_ ?_ ?_ ?_ ?_ ?_ g hr
  · intro page stored
    exact Nat.le_of_lt_succ (by decide : (3 : ℕ) < 6)
  · exact fun g b h => h
  · exact fun g b h => h
  · exact fun g t h => h
  · exact fun g _ h => h
  · intro g _ _ h
    show (jump m g).clouds.length ≤ 5
    rw [jump_clouds]
    exact h
  · exact fun g _ h => h
  · refine update_preserves m (fun g => g.clouds.length ≤ 5) ?_ ?_ ?_ ?_ ?_ ?_ ?_
    · exact fun g h => h
    · exact fun g h => h
    · intro g h
      show (updateObstacles m g).clouds.length ≤ 5
      rw [updateObstacles_clouds]
      exact h
    · exact fun g h => h
    · exact fun g h => updateClouds_length_le m g h
    · intro g h
      show (gameOver m g).clouds.length ≤ 5
      rw [gameOver_clouds]
      exact h
    · exact fun g h => h
  · exact fun g h => h

/-! ## The jump -/

/-- The physics step when the integrated position reaches the ground. -/
theorem dinoPhysics_land (d : Dino) (h : d.y + (d.velY + gravity) ≥ 300) :
    (dinoPhysics d).jumping = false ∧ (dinoPhysics d).velY = 0 ∧
      (dinoPhysics d).y = (if d.ducking = true then 320 else 300) ∧
      (dinoPhysics d).height = (if d.ducking = true then 30 else 45) ∧
      (dinoPhysics d).ducking = d.ducking := by
  unfold dinoPhysics
  dsimp only
  rw [if_pos h]
  dsimp only
  by_cases hd : d.ducking = true
  · rw [if_pos ⟨hd, rfl⟩, if_pos hd, if_pos hd]
    exact ⟨rfl, rfl, rfl, rfl, rfl⟩
  · rw [if_neg (fun hc => hd hc.1), if_pos rfl, if_neg hd, if_neg hd]
    exact ⟨rfl, rfl, rfl, rfl, rfl⟩

/-- The physics step of a jumping avatar that stays above the ground. -/
theorem dinoPhysics_air (d : Dino) (h : ¬ d.y + (d.velY + gravity) ≥ 300)
    (hj : d.jumping = true) :
    (dinoPhysics d).jumping = true ∧ (dinoPhysics d).velY = d.velY + gravity ∧
      (dinoPhysics d).y = d.y + (d.velY + gravity) ∧ (dinoPhysics d).height = 45 ∧
      (dinoPhysics d).ducking = d.ducking := by
  unfold dinoPhysics
  dsimp only
  rw [if_neg h]
  dsimp only
  rw [if_neg (fun hc => by rw [hj] at hc; exact Bool.noConfusion hc.2),
    if_neg (by rw [hj]; exact fun hc => Bool.noConfusion hc)]
  exact ⟨hj, rfl, rfl, rfl, rfl⟩

/-- One tick further along the arc of a jump from y = 300. -/
theorem arc_step (v y : ℚ) (k : ℕ) (hv : v = -16 + 0.8 * (k : ℚ))
    (hy : y = 300 - 0.4 * (k : ℚ) * (39 - (k : ℚ))) :
    v + gravity = -16 + 0.8 * ((k + 1 : ℕ) : ℚ) ∧
      y + (v + gravity) = 300 - 0.4 * ((k + 1 : ℕ) : ℚ) * (39 - ((k + 1 : ℕ) : ℚ)) := by
  rw [hv, hy]
  unfold gravity
  push_cast
  constructor <;> ring

theorem arc_above_ground (k : ℕ) (h1 : 1 ≤ k) (h38 : k ≤ 38) :
    300 - 0.4 * (k : ℚ) * (39 - (k : ℚ)) < 300 := by
  have hk1 : (1 : ℚ) ≤ (k : ℚ) := by exact_mod_cast h1
  have hk38 : (k : ℚ) ≤ 38 := by exact_mod_cast h38
  have hpos : (0 : ℚ) < (k : ℚ) * (39 - (k : ℚ)) := mul_pos (by linarith) (by linarith)
  linarith

theorem arc_apex (k : ℕ) (h38 : k ≤ 38) : 148 ≤ 300 - 0.4 * (k : ℚ) * (39 - (k : ℚ)) := by
  interval_cases k <;> norm_num

theorem dinoPhysics_arc (d : Dino) (h : OnJumpArc d) : OnJumpArc (dinoPhysics d) := by
  rcases h with ⟨_, hv, hy⟩ | ⟨_, hv, hy⟩ | ⟨hj, k, hk, hv, hy⟩
  · have hland : d.y + (d.velY + gravity) ≥ 300 := by
      rw [hv]
      unfold gravity
      rcases hy with hy | hy <;> rw [hy] <;> norm_num
    obtain ⟨a, b, c, _⟩ := dinoPhysics_land d hland
    left
    refine ⟨a, b, ?_⟩
    rw [c]
    split_ifs
    · right; rfl
    · left; rfl
  · have hland : d.y + (d.velY + gravity) ≥ 300 := by
      rw [hv, hy]
      unfold gravity
      norm_num
    obtain ⟨a, b, c, _⟩ := dinoPhysics_land d hland
    left
    refine ⟨a, b, ?_⟩
    rw [c]
    split_ifs
    · right; rfl
    · left; rfl
  · obtain ⟨hv', hy'⟩ := arc_step d.velY d.y k hv hy
    by_cases hlast : k = 38
    · have hland : d.y + (d.velY + gravity) ≥ 300 := by
        rw [hy', hlast]
        norm_num
      obtain ⟨a, b, c, _⟩ := dinoPhysics_land d hland
      left
      refine ⟨a, b, ?_⟩
      rw [c]
      split_ifs
      · right; rfl
      · left; rfl
    · have hk' : k + 1 ≤ 38 := by omega
      have hair : ¬ d.y + (d.velY + gravity) ≥ 300 := by
        rw [hy']
        exact not_le.mpr (arc_above_ground (k + 1) (by omega) hk')
      obtain ⟨a, b, c, _⟩ := dinoPhysics_air d hair hj
      right; right
      exact ⟨a, k + 1, hk', by rw [b, hv'], by rw [c, hy']⟩

theorem reachable_arc (m : Math) (g : DinoGame) (hr : Reachable m g) : OnJumpArc g.dino := by
  refine dino_invariant m OnJumpArc ?_ ?_ g hr
  · left
    exact ⟨rfl, rfl, Or.inl rfl⟩
  · intro d d' hw hd
    cases hw with
    | physics => exact dinoPhysics_arc d hd
    | duck b =>
      exact hd
    | impulse h =>
      rcases hd with ⟨_, _, hy⟩ | ⟨hj, _, _⟩ | ⟨hj, _⟩
      · rcases hy with hy | hy
        · right; right
          refine ⟨rfl, 0, Nat.zero_le _, ?_, ?_⟩
          · show -jumpPower = _
            unfold jumpPower
            norm_num
          · show d.y = _
            rw [hy]
            norm_num
        · right; left
          exact ⟨rfl, rfl, hy⟩
      · rw [h] at hj
        exact Bool.noConfusion hj
      · rw [h] at hj
        exact Bool.noConfusion hj
    | reset =>
      left
      exact ⟨rfl, rfl, Or.inl rfl⟩

theorem arc_y_ge (d : Dino) (h : OnJumpArc d) : 148 ≤ d.y := by
  rcases h with ⟨_, _, hy⟩ | ⟨_, _, hy⟩ | ⟨_, k, hk, _, hy⟩
  · rcases hy with hy | hy <;> rw [hy] <;> norm_num
  · rw [hy]
    norm_num
  · rw [hy]
    exact arc_apex k hk

/-- The first 38 ticks of a jump from y = 300: the avatar stays in the air
on the arc. -/
theorem jump_trajectory (d : Dino) (hj : d.jumping = true) (hv : d.velY = -jumpPower)
    (hy : d.y = 300) (k : ℕ) (hk : k ≤ 38) :
    (dinoPhysics^[k] d).jumping = true ∧
      (dinoPhysics^[k] d).velY = -16 + 0.8 * (k : ℚ) ∧
      (dinoPhysics^[k] d).y = 300 - 0.4 * (k : ℚ) * (39 - (k : ℚ)) ∧
      (dinoPhysics^[k] d).ducking = d.ducking := by
  induction k with
  | zero =>
    refine ⟨hj, ?_, ?_, rfl⟩
    · show d.velY = _
      rw [hv]
      unfold jumpPower
      norm_num
    · show d.y = _
      rw [hy]
      norm_num
  | succ k ih =>
    obtain ⟨a, b, c, e⟩ := ih (by omega)
    obtain ⟨hv', hy'⟩ := arc_step _ _ k b c
    have hair : ¬ (dinoPhysics^[k] d).y + ((dinoPhysics^[k] d).velY + gravity) ≥ 300 := by
      rw [hy']
      exact not_le.mpr (arc_above_ground (k + 1) (by omega) hk)
    obtain ⟨a', b', c', _, e'⟩ := dinoPhysics_air _ hair a
    rw [Function.iterate_succ_apply']
    exact ⟨a', by rw [b', hv'], by rw [c', hy'], by rw [e', e]⟩

/-- The 39th tick of a jump from y = 300 lands. -/
theorem jump_landing (d : Dino) (hj : d.jumping = true) (hv : d.velY = -jumpPower)
    (hy : d.y = 300) :
    (dinoPhysics^[39] d).jumping = false ∧ (dinoPhysics^[39] d).velY = 0 ∧
      (dinoPhysics^[39] d).y = (if d.ducking = true then 320 else 300) := by
  obtain ⟨_, b, c, e⟩ := jump_trajectory d hj hv hy 38 (le_refl _)
  obtain ⟨_, hy'⟩ := arc_step _ _ 38 b c
  have hland : (dinoPhysics^[38] d).y + ((dinoPhysics^[38] d).velY + gravity) ≥ 300 := by
    rw [hy']
    norm_num
  obtain ⟨a', b', c', _, _⟩ := dinoPhysics_land _ hland
  rw [Function.iterate_succ_apply']
  rw [e] at c'
  exact ⟨a', b', c'⟩

/-! ## Invariants of the obstacles -/

theorem createExplosion_obstacles (m : Math) (x y : ℚ) (g : DinoGame) :
    (createExplosion m x y g).obstacles = g.obstacles := by
  unfold createExplosion
  exact iterate_field (pushExplosionParticle m x y) DinoGame.obstacles (fun _ => rfl) 15 g

theorem gameOver_obstacles (m : Math) (g : DinoGame) :
    (gameOver m g).obstacles = g.obstacles := by
  unfold gameOver
  dsimp only
  rw [createExplosion_obstacles]
  split_ifs <;> rfl

theorem checkCollisions_obstacles (m : Math) (g : DinoGame) :
    (checkCollisions m g).obstacles = g.obstacles := by
  unfold checkCollisions
  rw [checkCollisionsLoop_eq]
  split_ifs
  · exact gameOver_obstacles m g
  · rfl

theorem updateClouds_obstacles (m : Math) (g : DinoGame) :
    (updateClouds m g).obstacles = g.obstacles := by
  unfold updateClouds addCloud
  dsimp only
  split_ifs <;> rfl

theorem jump_obstacles (m : Math) (g : DinoGame) : (jump m g).obstacles = g.obstacles := by
  unfold jump
  split_ifs <;> rfl

theorem update_obstacles (m : Math) (dt : ℚ) (g : DinoGame) (h : g.gameState = .playing) :
    (update m dt g).obstacles = (advance m g).obstacles := by
  unfold update
  rw [if_neg (not_not.mpr h)]
  show (checkCollisions m (advance m g)).obstacles = _
  rw [checkCollisions_obstacles]

theorem moveObstacle_cactus (m : Math) (v : ℚ) (o : Obstacle) (h : o.type = .cactus) :
    moveObstacle m v o = { o with x := o.x - v } := by
  unfold moveObstacle
  dsimp only
  rw [if_neg]
  rw [h]
  exact fun hc => ObstacleType.noConfusion hc.1

theorem moveObstacle_y (m : Math) (v : ℚ) (o : Obstacle) :
    (moveObstacle m v o).y = o.y ∨ ∃ t : ℚ, (moveObstacle m v o).y = o.initialY + m.sin t * 30 := by
  unfold moveObstacle
  dsimp only
  split_ifs
  · right
    exact ⟨_, rfl⟩
  · left
    rfl

/-- A property of obstacles that holds for fresh ones and is kept by the
move of `updateObstacles` and by the wing animation of `drawBird` is kept,
for all obstacles of the list, by `update`. -/
theorem update_obstacles_all (m : Math) (P : Obstacle → Prop)
    (hfresh : ∀ o, FreshObstacle o → P o)
    (hmove : ∀ v o, P o → P (moveObstacle m v o)) :
    ∀ (dt : ℚ) (g : DinoGame), (∀ o ∈ g.obstacles, P o) →
      ∀ o ∈ (update m dt g).obstacles, P o := by
  refine update_preserves m (fun g => ∀ o ∈ g.obstacles, P o) ?_ ?_ ?_ ?_ ?_ ?_ ?_
  · exact fun g h => h
  · exact fun g h => h
  · intro g h o' ho'
    obtain ⟨sp, hsp, heq⟩ := spawnObstacle_obstacles m g
    have hmem : o' ∈ moveObstacles m g.gameSpeed (spawnObstacle m g).obstacles := ho'
    obtain ⟨⟨o, ho, rfl⟩, _⟩ := mem_moveObstacles m _ _ o' hmem
    rw [heq, List.mem_append] at ho
    rcases ho with ho | ho
    · exact hmove _ _ (h o ho)
    · exact hmove _ _ (hfresh o (hsp o ho))
  · exact fun g h => h
  · intro g h o ho
    rw [updateClouds_obstacles] at ho
    exact h o ho
  · intro g h o ho
    rw [gameOver_obstacles] at ho
    exact h o ho
  · exact fun g h => h

theorem reachable_obstacles (m : Math) (P : Obstacle → Prop)
    (hfresh : ∀ o, FreshObstacle o → P o)
    (hmove : ∀ v o, P o → P (moveObstacle m v o))
    (hwing : ∀ o w, P o → P { o with wingPhase := w }) :
    ∀ g, Reachable m g → ∀ o ∈ g.obstacles, P o := by
  refine reachable_invariant m (fun g => ∀ o ∈ g.obstacles, P o) ?_ ?_ ?_ ?_ ?_ ?_ ?_ ?_ ?_
  · intro page stored o ho
    exact absurd ho (List.not_mem_nil _)
  · exact fun g b h => h
  · exact fun g b h => h
  · exact fun g t h => h
  · exact fun g _ h => h
  · intro g _ _ h o ho
    rw [jump_obstacles] at ho
    exact h o ho
  · intro g _ _ o ho
    exact absurd ho (List.not_mem_nil _)
  · exact update_obstacles_all m P hfresh hmove
  · intro g h o' ho'
    have hmem : o' ∈ g.obstacles.map fun o =>
        if o.type = .bird then
          { o with wingPhase := o.wingPhase + (0.3 + g.gameSpeed / baseSpeed * 0.2) }
        else o := ho'
    rw [List.mem_map] at hmem
    obtain ⟨o, ho, rfl⟩ := hmem
    split_ifs
    · exact hwing o _ (h o ho)
    · exact h o ho

/-- The geometry of a cactus: what `generateObstacle` gives it. -/
theorem cactus_geometry_kept (m : Math) :
    (∀ o, FreshObstacle o → (o.type = .cactus → o.y = 310 ∧ o.width = 20 ∧ o.height = 40)) ∧
    (∀ v o, (o.type = .cactus → o.y = 310 ∧ o.width = 20 ∧ o.height = 40) →
      ((moveObstacle m v o).type = .cactus →
        (moveObstacle m v o).y = 310 ∧ (moveObstacle m v o).width = 20 ∧
          (moveObstacle m v o).height = 40)) := by
  constructor
  · rintro o ⟨_, ⟨_, hy, hw, hh⟩ | ⟨ht, _⟩⟩ hc
    · exact ⟨hy, hw, hh⟩
    · rw [ht] at hc
      exact ObstacleType.noConfusion hc
  · intro v o h hc
    have ht : o.type = .cactus := by
      rw [← (moveObstacle_x m v o).2.2.2.1]
      exact hc
    rw [moveObstacle_cactus m v o ht]
    exact h ht

/-- The geometry of a bird when the sine stays within [-1, 1]: height 25 and
y within 30 of one of the two spawn heights. -/
theorem bird_geometry_kept (m : Math) (hsin : ∀ t : ℚ, -1 ≤ m.sin t ∧ m.sin t ≤ 1) :
    (∀ o, FreshObstacle o →
      (o.type = .bird → o.height = 25 ∧ (o.initialY = 200 ∨ o.initialY = 250) ∧
        ∃ off : ℚ, -30 ≤ off ∧ off ≤ 30 ∧ o.y = o.initialY + off)) ∧
    (∀ v o,
      (o.type = .bird → o.height = 25 ∧ (o.initialY = 200 ∨ o.initialY = 250) ∧
        ∃ off : ℚ, -30 ≤ off ∧ off ≤ 30 ∧ o.y = o.initialY + off) →
      ((moveObstacle m v o).type = .bird →
        (moveObstacle m v o).height = 25 ∧
        ((moveObstacle m v o).initialY = 200 ∨ (moveObstacle m v o).initialY = 250) ∧
        ∃ off : ℚ, -30 ≤ off ∧ off ≤ 30 ∧
          (moveObstacle m v o).y = (moveObstacle m v o).initialY + off)) := by
  constructor
  · rintro o ⟨_, ⟨ht, _⟩ | ⟨_, hy, hi, _, hh⟩⟩ hb
    · rw [ht] at hb
      exact ObstacleType.noConfusion hb
    · refine ⟨hh, ?_, 0, by norm_num, by norm_num, by rw [hi, add_zero]⟩
      rw [hi]
      rcases hy with hy | hy
      · right; exact hy
      · left; exact hy
  · intro v o h hb
    obtain ⟨_, _, hh, ht, hi⟩ := moveObstacle_x m v o
    rw [ht] at hb
    obtain ⟨h25, hinit, off, hlo, hhi, hy⟩ := h hb
    rw [hh, hi]
    refine ⟨h25, hinit, ?_⟩
    rcases moveObstacle_y m v o with hsame | ⟨t, hosc⟩
    · exact ⟨off, hlo, hhi, by rw [hsame, hy]⟩
    · refine ⟨m.sin t * 30, ?_, ?_, hosc⟩
      · linarith [(hsin t).1]
      · linarith [(hsin t).2]

/-- When the avatar is not jumping after its physics step, it is in one of
the two ground poses. -/
theorem dinoPhysics_pose (d : Dino) (h : (dinoPhysics d).jumping = false) :
    ((dinoPhysics d).y = 300 ∧ (dinoPhysics d).height = 45) ∨
      ((dinoPhysics d).y = 320 ∧ (dinoPhysics d).height = 30) := by
  by_cases hland : d.y + (d.velY + gravity) ≥ 300
  · obtain ⟨_, _, c, e, _⟩ := dinoPhysics_land d hland
    rw [c, e]
    split_ifs
    · right; exact ⟨rfl, rfl⟩
    · left; exact ⟨rfl, rfl⟩
  · unfold dinoPhysics at h ⊢
    dsimp only at h ⊢
    rw [if_neg hland] at h ⊢
    dsimp only at h ⊢
    by_cases hd : d.ducking = true ∧ d.jumping = false
    · rw [if_pos hd]
      right; exact ⟨rfl, rfl⟩
    · rw [if_neg hd] at h ⊢
      by_cases hj : d.jumping = false
      · rw [if_pos hj]
        left; exact ⟨rfl, rfl⟩
      · rw [if_neg hj] at h
        exact absurd h hj

theorem reachable_gameSpeed (m : Math) (g : DinoGame) (hr : Reachable m g) :
    g.gameSpeed ≤ 24 := by
  refine reachable_invariant m (fun g => g.gameSpeed ≤ 24) ?_ ?_ ?_ ?_ ?_ ?_ ?_ ?_ ?_ g hr
  · intro page stored
    show (8 : ℚ) ≤ 24
    norm_num
  · exact fun g b h => h
  · exact fun g b h => h
  · exact fun g t h => h
  · exact fun g _ h => h
  · intro g _ _ h
    have hs : (jump m g).gameSpeed = g.gameSpeed := by
      unfold jump
      split_ifs <;> rfl
    show (jump m g).gameSpeed ≤ 24
    rw [hs]
    exact h
  · intro g _ _
    show baseSpeed ≤ 24
    unfold baseSpeed
    norm_num
  · intro dt g h
    unfold update
    split_ifs
    · exact h
    · show min _ (baseSpeed * 3) ≤ 24
      unfold baseSpeed
      exact le_trans (min_le_right _ _) (by norm_num)
  · exact fun g h => h

/-! ## Hitboxes of the grounded avatar -/

theorem grounded_bird_miss (d : Dino) (o : Obstacle)
    (hpose : (d.y = 300 ∧ d.height = 45) ∨ (d.y = 320 ∧ d.height = 30))
    (hh : o.height = 25) (hy : o.y ≤ 280) :
    isColliding (dinoBox d) (obstacleBox o) = false := by
  have h3 : decide ((dinoBox d).y < (obstacleBox o).y + (obstacleBox o).height) = false := by
    rw [decide_eq_false_iff_not]
    show ¬ d.y + 5 < o.y + 2 + (o.height - 4)
    rw [hh]
    rcases hpose with ⟨h, _⟩ | ⟨h, _⟩ <;> rw [h] <;> intro hc <;> linarith
  unfold isColliding
  rw [h3, Bool.and_false, Bool.false_and]

theorem cactus_window (d : Dino) (o : Obstacle) (hx : d.x = 80) (hw : d.width = 50)
    (hpose : (d.y = 300 ∧ d.height = 45) ∨ (d.y = 320 ∧ d.height = 30))
    (hoy : o.y = 310) (how : o.width = 20) (hoh : o.height = 40) :
    isColliding (dinoBox d) (obstacleBox o) = true ↔ 70 < o.x ∧ o.x < 120 := by
  unfold isColliding dinoBox obstacleBox
  simp only [Bool.and_eq_true, decide_eq_true_eq, gt_iff_lt]
  rw [hx, hw, hoy, how, hoh]
  constructor
  · rintro ⟨⟨⟨h1, h2⟩, _⟩, _⟩
    exact ⟨by linarith, by linarith⟩
  · rintro ⟨h1, h2⟩
    rcases hpose with ⟨hy, hh⟩ | ⟨hy, hh⟩ <;> rw [hy, hh] <;>
      exact ⟨⟨⟨by linarith, by linarith⟩, by norm_num⟩, by norm_num⟩

/-! ## The tick that ends the game -/

theorem advance_score (m : Math) (g : DinoGame) : (advance m g).score = g.score := by
  unfold advance updateClouds addCloud updateParticles updateObstacles spawnObstacle
    generateObstacle updateDino
  dsimp only
  split_ifs <;> rfl

theorem advance_highScore (m : Math) (g : DinoGame) :
    (advance m g).highScore = g.highScore := by
  unfold advance updateClouds addCloud updateParticles updateObstacles spawnObstacle
    generateObstacle updateDino
  dsimp only
  split_ifs <;> rfl

theorem advance_frameCount (m : Math) (g : DinoGame) :
    (advance m g).frameCount = g.frameCount + 1 := by
  unfold advance updateClouds addCloud updateParticles updateObstacles spawnObstacle
    generateObstacle updateDino
  dsimp only
  split_ifs <;> rfl

theorem createExplosion_score (m : Math) (x y : ℚ) (g : DinoGame) :
    (createExplosion m x y g).score = g.score := by
  unfold createExplosion
  exact iterate_field (pushExplosionParticle m x y) DinoGame.score (fun _ => rfl) 15 g

theorem createExplosion_frameCount (m : Math) (x y : ℚ) (g : DinoGame) :
    (createExplosion m x y g).frameCount = g.frameCount := by
  unfold createExplosion
  exact iterate_field (pushExplosionParticle m x y) DinoGame.frameCount (fun _ => rfl) 15 g

theorem gameOver_score (m : Math) (g : DinoGame) : (gameOver m g).score = g.score := by
  unfold gameOver
  dsimp only
  rw [createExplosion_score]
  split_ifs <;> rfl

theorem gameOver_frameCount (m : Math) (g : DinoGame) :
    (gameOver m g).frameCount = g.frameCount := by
  unfold gameOver
  dsimp only
  rw [createExplosion_frameCount]
  split_ifs <;> rfl

theorem checkCollisions_score (m : Math) (g : DinoGame) :
    (checkCollisions m g).score = g.score := by
  unfold checkCollisions
  rw [checkCollisionsLoop_eq]
  split_ifs
  · exact gameOver_score m g
  · rfl

theorem updateDifficulty_fields (g : DinoGame) :
    (updateDifficulty g).highScore = g.highScore ∧
      (updateDifficulty g).gameState = g.gameState ∧
      (updateDifficulty g).frameCount = g.frameCount ∧
      (updateDifficulty g).obstacleTimer = g.obstacleTimer ∧
      (updateDifficulty g).scoreElement = ⌊(updateDifficulty g).score⌋ :=
  ⟨rfl, rfl, rfl, rfl, rfl⟩

theorem update_score (m : Math) (dt : ℚ) (g : DinoGame) (h : g.gameState = .playing) :
    (update m dt g).score = g.score + 0.2 ∧
      (update m dt g).gameSpeed = speedForScore (g.score + 0.2) := by
  unfold update
  rw [if_neg (not_not.mpr h)]
  have hs : (checkCollisions m (advance m g)).score = g.score := by
    rw [checkCollisions_score, advance_score]
  constructor
  · show (checkCollisions m (advance m g)).score + 0.2 = _
    rw [hs]
  · show speedForScore ((checkCollisions m (advance m g)).score + 0.2) = _
    rw [hs]

theorem gameOver_highScore_max (m : Math) (g : DinoGame) :
    (gameOver m g).highScore = max g.highScore ⌊g.score⌋ := by
  by_cases h : ⌊g.score⌋ > g.highScore
  · rw [(gameOver_beaten m g h).1, max_eq_right (le_of_lt h)]
  · rw [(gameOver_not_beaten m g h).1, max_eq_left (not_lt.mp h)]

/-- The late jump: after 214 ticks the game is still running, and the next
tick finds the avatar, 38 ticks into its jump, overlapping the cactus at
x = 88. -/
theorem lateJumpRun_collision :
    (lateJumpRun 37).gameState = .playing ∧ (lateJumpRun 37).score = 42.8 ∧
    (lateJumpRun 37).highScore = 0 ∧
    (∃ o ∈ (advance mathZero (lateJumpRun 37)).obstacles,
      isColliding
        { x := (advance mathZero (lateJumpRun 37)).dino.x + 8
          y := (advance mathZero (lateJumpRun 37)).dino.y + 5
          width := (advance mathZero (lateJumpRun 37)).dino.width - 16
          height := (advance mathZero (lateJumpRun 37)).dino.height - 10 }
        { x := o.x + 2, y := o.y + 2, width := o.width - 4, height := o.height - 4 }
        = true) := by
  decide!

/-! ## Speed and spawn spacing -/

theorem speedForScore_mono (a b : ℚ) (h : a ≤ b) : speedForScore a ≤ speedForScore b := by
  unfold speedForScore Math.floor baseSpeed
  have hfl : ((⌊a / 100⌋ : ℤ) : ℚ) ≤ ((⌊b / 100⌋ : ℤ) : ℚ) := by
    exact_mod_cast Int.floor_mono (div_le_div_of_nonneg_right h (by norm_num))
  exact min_le_min (by linarith) (le_refl _)

theorem speedForScore_ge (s : ℚ) (h : 0 ≤ s) : 8 ≤ speedForScore s := by
  unfold speedForScore Math.floor baseSpeed
  have hfl : (0 : ℚ) ≤ ((⌊s / 100⌋ : ℤ) : ℚ) := by
    exact_mod_cast Int.floor_nonneg.mpr (div_nonneg h (by norm_num))
  exact le_min (by linarith) (by norm_num)

theorem speedForScore_le (s : ℚ) : speedForScore s ≤ 24 := by
  unfold speedForScore baseSpeed
  exact le_trans (min_le_right _ _) (by norm_num)

theorem speedForScore_zero : speedForScore 0 = 8 := by
  decide!

/-- Going back by at most 100 points lowers the speed by at most 1.2. -/
theorem speedForScore_back (s c : ℚ) (hc : c ≤ 100) :
    speedForScore s - 1.2 ≤ speedForScore (s - c) := by
  unfold speedForScore Math.floor baseSpeed
  have hfl : ((⌊s / 100⌋ : ℤ) : ℚ) - 1 ≤ ((⌊(s - c) / 100⌋ : ℤ) : ℚ) := by
    have h1 : ⌊s / 100 - 1⌋ ≤ ⌊(s - c) / 100⌋ := Int.floor_mono (by linarith)
    rw [Int.floor_sub_one] at h1
    exact_mod_cast h1
  refine le_min ?_ ?_
  · have h := min_le_left (8 * (1 + ((⌊s / 100⌋ : ℤ) : ℚ) * 0.15)) (8 * 3 : ℚ)
    linarith
  · have h := min_le_right (8 * (1 + ((⌊s / 100⌋ : ℤ) : ℚ) * 0.15)) (8 * 3 : ℚ)
    linarith

/-- When the timer passes the spawn threshold, an obstacle that has moved at
no less than `g` per tick, with `g` within 1.2 of the current speed, has
travelled more than 835. -/
theorem prune_bound (τ g v : ℚ) (hv24 : v ≤ 24) (hg8 : 8 ≤ g)
    (hgv : v - 1.2 ≤ g) (hτ : τ > obstacleFrequency v) : 835 < τ * g + g := by
  unfold obstacleFrequency at hτ
  have h1 : 150 - v * 3 < τ := lt_of_le_of_lt (le_max_right _ _) hτ
  have h2 : (60 : ℚ) < τ := lt_of_le_of_lt (le_max_left _ _) hτ
  by_cases hlow : v ≤ 9.2
  · have hτ' : (122.4 : ℚ) < τ := by linarith
    have hmul : τ * 8 ≤ τ * g := mul_le_mul_of_nonneg_left hg8 (by linarith)
    linarith
  · have hv : (9.2 : ℚ) < v := not_le.mp hlow
    have hmul : τ * (v - 1.2) ≤ τ * g := mul_le_mul_of_nonneg_left hgv (by linarith)
    have hmul2 : (150 - v * 3) * (v - 1.2) ≤ τ * (v - 1.2) :=
      mul_le_mul_of_nonneg_right (le_of_lt h1) (by linarith)
    have hquad : 0 ≤ (v - 9.2) * (24 - v) := mul_nonneg (by linarith) (by linarith)
    nlinarith

theorem moveObstacles_all_pruned (m : Math) (v : ℚ) (os : List Obstacle)
    (h : ∀ o ∈ os, (moveObstacle m v o).x + (moveObstacle m v o).width < 0) :
    moveObstacles m v os = [] := by
  induction os with
  | nil => rfl
  | cons o os ih =>
    rw [moveObstacles_cons, if_pos (h o (List.mem_cons_self _ _)),
      ih (fun o' ho' => h o' (List.mem_cons_of_mem _ ho'))]
    rfl

theorem moveObstacles_length_le (m : Math) (v : ℚ) (os : List Obstacle) :
    (moveObstacles m v os).length ≤ os.length := by
  rw [moveObstacles_eq]
  exact le_trans (List.length_filter_le _ _) (le_of_eq (List.length_map _ _))

theorem spawnObstacle_cases (m : Math) (g : DinoGame) :
    (g.obstacleTimer + 1 > obstacleFrequency g.gameSpeed →
      ∃ o : Obstacle, FreshObstacle o ∧ (spawnObstacle m g).obstacles = g.obstacles ++ [o] ∧
        (spawnObstacle m g).obstacleTimer = 0) ∧
    (¬ g.obstacleTimer + 1 > obstacleFrequency g.gameSpeed →
      (spawnObstacle m g).obstacles = g.obstacles ∧
        (spawnObstacle m g).obstacleTimer = g.obstacleTimer + 1) := by
  constructor
  · intro h
    obtain ⟨o, ho, heq⟩ := generateObstacle_fresh m { g with obstacleTimer := g.obstacleTimer + 1 }
    have hs : spawnObstacle m g =
        { generateObstacle m { g with obstacleTimer := g.obstacleTimer + 1 } with
          obstacleTimer := 0 } := by
      unfold spawnObstacle
      dsimp only
      rw [if_pos h]
    rw [hs]
    exact ⟨o, ho, heq, rfl⟩
  · intro h
    have hs : spawnObstacle m g = { g with obstacleTimer := g.obstacleTimer + 1 } := by
      unfold spawnObstacle
      dsimp only
      rw [if_neg h]
    rw [hs]
    exact ⟨rfl, rfl⟩

theorem updateClouds_obstacleTimer (m : Math) (g : DinoGame) :
    (updateClouds m g).obstacleTimer = g.obstacleTimer := by
  unfold updateClouds addCloud
  dsimp only
  split_ifs <;> rfl

theorem createExplosion_obstacleTimer (m : Math) (x y : ℚ) (g : DinoGame) :
    (createExplosion m x y g).obstacleTimer = g.obstacleTimer := by
  unfold createExplosion
  exact iterate_field (pushExplosionParticle m x y) DinoGame.obstacleTimer (fun _ => rfl) 15 g

theorem gameOver_obstacleTimer (m : Math) (g : DinoGame) :
    (gameOver m g).obstacleTimer = g.obstacleTimer := by
  unfold gameOver
  dsimp only
  rw [createExplosion_obstacleTimer]
  split_ifs <;> rfl

theorem checkCollisions_obstacleTimer (m : Math) (g : DinoGame) :
    (checkCollisions m g).obstacleTimer = g.obstacleTimer := by
  unfold checkCollisions
  rw [checkCollisionsLoop_eq]
  split_ifs
  · exact gameOver_obstacleTimer m g
  · rfl

/-- The obstacle list and the spawn timer after a tick in phase Playing. -/
theorem update_spawn_cases (m : Math) (dt : ℚ) (g : DinoGame) (hplay : g.gameState = .playing) :
    (g.obstacleTimer + 1 > obstacleFrequency g.gameSpeed →
      ∃ o : Obstacle, FreshObstacle o ∧
        (update m dt g).obstacles = moveObstacles m g.gameSpeed (g.obstacles ++ [o]) ∧
        (update m dt g).obstacleTimer = 0) ∧
    (¬ g.obstacleTimer + 1 > obstacleFrequency g.gameSpeed →
      (update m dt g).obstacles = moveObstacles m g.gameSpeed g.obstacles ∧
        (update m dt g).obstacleTimer = g.obstacleTimer + 1) := by
  have hobs : (update m dt g).obstacles =
      moveObstacles m g.gameSpeed
        (spawnObstacle m (updateDino { g with frameCount := g.frameCount + 1 })).obstacles := by
    rw [update_obstacles m dt g hplay]
    unfold advance
    rw [updateClouds_obstacles]
    rfl
  have htimer : (update m dt g).obstacleTimer =
      (spawnObstacle m (updateDino { g with frameCount := g.frameCount + 1 })).obstacleTimer := by
    unfold update
    rw [if_neg (not_not.mpr hplay), (updateDifficulty_fields _).2.2.2.1,
      checkCollisions_obstacleTimer]
    unfold advance
    rw [updateClouds_obstacleTimer]
    rfl
  obtain ⟨hyes, hno⟩ := spawnObstacle_cases m (updateDino { g with frameCount := g.frameCount + 1 })
  constructor
  · intro h
    obtain ⟨o, ho, heq, ht⟩ := hyes h
    exact ⟨o, ho, by rw [hobs, heq]; rfl, by rw [htimer, ht]⟩
  · intro h
    obtain ⟨heq, ht⟩ := hno h
    exact ⟨by rw [hobs, heq]; rfl, by rw [htimer, ht]; rfl⟩

/-! ## The spacing invariant -/

/-- In a state that satisfies the invariant, the tick that spawns prunes
every obstacle already in the list. -/
theorem spawn_prunes (m : Math) (g : DinoGame) (hinv : SpawnInvariant g)
    (hspawn : g.obstacleTimer + 1 > obstacleFrequency g.gameSpeed) :
    ∀ o ∈ g.obstacles,
      (moveObstacle m g.gameSpeed o).x + (moveObstacle m g.gameSpeed o).width < 0 := by
  obtain ⟨_, hv, _, ht126, _, hobs⟩ := hinv
  intro o ho
  obtain ⟨hw, hb, hx⟩ := hobs o ho
  obtain ⟨hmx, hmw, _⟩ := moveObstacle_x m g.gameSpeed o
  rw [hmx, hmw]
  have hg8 := speedForScore_ge _ hb
  have hback := speedForScore_back g.score (0.2 * (g.obstacleTimer + 1)) (by linarith)
  have hmono := speedForScore_mono (g.score - 0.2 * (g.obstacleTimer + 1)) g.score (by linarith)
  rw [← hv] at hback hmono
  have hv24 : g.gameSpeed ≤ 24 := by
    rw [hv]
    exact speedForScore_le _
  have hkey := prune_bound (g.obstacleTimer + 1) _ g.gameSpeed hv24 hg8 hback hspawn
  linarith

theorem spawnInvariant_update (m : Math) (dt : ℚ) (g : DinoGame) (hinv : SpawnInvariant g) :
    SpawnInvariant (update m dt g) := by
  by_cases hplay : g.gameState = .playing
  swap
  · have h : update m dt g = g := by
      unfold update
      rw [if_pos hplay]
    rw [h]
    exact hinv
  obtain ⟨hscore, hspeed⟩ := update_score m dt g hplay
  obtain ⟨hyes, hno⟩ := update_spawn_cases m dt g hplay
  have hinv' := hinv
  obtain ⟨hs0, hv, ht0, ht126, hlen, hobs⟩ := hinv'
  have hv8 : 8 ≤ g.gameSpeed := by
    rw [hv]
    exact speedForScore_ge _ hs0
  by_cases hspawn : g.obstacleTimer + 1 > obstacleFrequency g.gameSpeed
  · obtain ⟨fresh, hfresh, hlist, htimer⟩ := hyes hspawn
    have hold : moveObstacles m g.gameSpeed g.obstacles = [] :=
      moveObstacles_all_pruned m _ _ (spawn_prunes m g hinv hspawn)
    have hlist' : (update m dt g).obstacles = moveObstacles m g.gameSpeed [fresh] := by
      rw [hlist, moveObstacles_append, hold, List.nil_append]
    refine ⟨?_, ?_, ?_, ?_, ?_, ?_⟩
    · rw [hscore]
      linarith
    · rw [hspeed, hscore]
    · rw [htimer]
    · rw [htimer]
      norm_num
    · rw [hlist']
      exact moveObstacles_length_le m _ [fresh]
    · intro o' ho'
      rw [hlist'] at ho'
      obtain ⟨⟨o, ho, rfl⟩, _⟩ := mem_moveObstacles m _ _ o' ho'
      rw [List.mem_singleton] at ho
      rw [ho]
      obtain ⟨hmx, hmw, _⟩ := moveObstacle_x m g.gameSpeed fresh
      have hbirth : g.score + 0.2 - 0.2 * ((0 : ℚ) + 1) = g.score := by ring
      rw [hmx, hmw, htimer, hscore, hbirth, ← hv]
      obtain ⟨hx800, hkind⟩ := hfresh
      refine ⟨?_, hs0, ?_⟩
      · rcases hkind with ⟨_, _, hw, _⟩ | ⟨_, _, _, hw, _⟩ <;> linarith
      · rw [hx800]
        linarith
  · obtain ⟨hlist, htimer⟩ := hno hspawn
    have hfreq : obstacleFrequency g.gameSpeed ≤ 126 := by
      unfold obstacleFrequency
      exact max_le (by norm_num) (by linarith)
    refine ⟨?_, ?_, ?_, ?_, ?_, ?_⟩
    · rw [hscore]
      linarith
    · rw [hspeed, hscore]
    · rw [htimer]
      linarith
    · rw [htimer]
      exact le_trans (not_lt.mp hspawn) hfreq
    · rw [hlist]
      exact le_trans (moveObstacles_length_le m _ _) hlen
    · intro o' ho'
      rw [hlist] at ho'
      obtain ⟨⟨o, ho, rfl⟩, _⟩ := mem_moveObstacles m _ _ o' ho'
      obtain ⟨hw, hb, hx⟩ := hobs o ho
      obtain ⟨hmx, hmw, _⟩ := moveObstacle_x m g.gameSpeed o
      have hbirth : g.score + 0.2 - 0.2 * (g.obstacleTimer + 1 + 1) =
          g.score - 0.2 * (g.obstacleTimer + 1) := by ring
      rw [hmx, hmw, htimer, hscore, hbirth]
      have hmono := speedForScore_mono (g.score - 0.2 * (g.obstacleTimer + 1)) g.score
        (by linarith)
      rw [← hv] at hmono
      refine ⟨hw, hb, ?_⟩
      linarith

theorem jump_spawn_fields (m : Math) (g : DinoGame) :
    (jump m g).score = g.score ∧ (jump m g).gameSpeed = g.gameSpeed ∧
      (jump m g).obstacleTimer = g.obstacleTimer ∧ (jump m g).obstacles = g.obstacles := by
  unfold jump
  split_ifs <;> exact ⟨rfl, rfl, rfl, rfl⟩

theorem reachable_spawnInvariant (m : Math) (g : DinoGame) (hr : Reachable m g) :
    SpawnInvariant g := by
  refine reachable_invariant m SpawnInvariant ?_ ?_ ?_ ?_ ?_ ?_ ?_ ?_ ?_ g hr
  · intro page stored
    refine ⟨le_refl _, speedForScore_zero.symm, le_refl _, ?_, Nat.zero_le _, ?_⟩
    · show (0 : ℚ) ≤ 126
      norm_num
    · intro o ho
      exact absurd ho (List.not_mem_nil _)
  · exact fun g b h => h
  · exact fun g b h => h
  · exact fun g t h => h
  · exact fun g _ h => h
  · intro g _ _ h
    obtain ⟨a, b, c, d⟩ := jump_spawn_fields m g
    unfold SpawnInvariant
    rw [a, b, c, d]
    exact h
  · intro g _ _
    refine ⟨le_refl _, speedForScore_zero.symm, le_refl _, ?_, Nat.zero_le _, ?_⟩
    · show (0 : ℚ) ≤ 126
      norm_num
    · intro o ho
      exact absurd ho (List.not_mem_nil _)
  · exact fun dt g h => spawnInvariant_update m dt g h
  · intro g h
    obtain ⟨hs0, hv, ht0, ht126, hlen, hobs⟩ := h
    refine ⟨hs0, hv, ht0, ht126, ?_, ?_⟩
    · show (g.obstacles.map _).length ≤ 1
      rw [List.length_map]
      exact hlen
    · intro o' ho'
      have hmem : o' ∈ g.obstacles.map fun o =>
          if o.type = .bird then
            { o with wingPhase := o.wingPhase + (0.3 + g.gameSpeed / baseSpeed * 0.2) }
          else o := ho'
      rw [List.mem_map] at hmem
      obtain ⟨o, ho, rfl⟩ := hmem
      split_ifs
      · exact hobs o ho
      · exact hobs o ho

/-! ## Sizes of the hitboxes and positions of the obstacles -/

theorem isColliding_self_iff (r : Rect) :
    isColliding r r = true ↔ (r.x < r.x + r.width ∧ r.y < r.y + r.height) := by
  unfold isColliding
  simp only [Bool.and_eq_true, decide_eq_true_eq, gt_iff_lt]
  constructor
  · rintro ⟨⟨⟨h1, _⟩, h3⟩, _⟩
    exact ⟨h1, h3⟩
  · rintro ⟨h1, h3⟩
    exact ⟨⟨⟨h1, h1⟩, h3⟩, h3⟩

theorem dinoPhysics_height (d : Dino) :
    (dinoPhysics d).height = 45 ∨ (dinoPhysics d).height = 30 := by
  unfold dinoPhysics
  dsimp only
  split_ifs <;> first | exact Or.inl rfl | exact Or.inr rfl

theorem reachable_dino_height (m : Math) (g : DinoGame) (hr : Reachable m g) :
    g.dino.height = 45 ∨ g.dino.height = 30 := by
  refine dino_invariant m (fun d => d.height = 45 ∨ d.height = 30) (Or.inl rfl) ?_ g hr
  intro d d' hw hd
  cases hw with
  | physics => exact dinoPhysics_height d
  | duck b => exact hd
  | impulse h => exact hd
  | reset => exact hd

theorem reachable_obstacle_size (m : Math) (g : DinoGame) (hr : Reachable m g) :
    ∀ o ∈ g.obstacles,
      (o.width = 20 ∧ o.height = 40) ∨ (o.width = 35 ∧ o.height = 25) := by
  refine reachable_obstacles m
    (fun o => (o.width = 20 ∧ o.height = 40) ∨ (o.width = 35 ∧ o.height = 25))
    ?_ ?_ (fun _ _ h => h) g hr
  · rintro o ⟨_, ⟨_, _, hw, hh⟩ | ⟨_, _, _, hw, hh⟩⟩
    · exact Or.inl ⟨hw, hh⟩
    · exact Or.inr ⟨hw, hh⟩
  · intro v o h
    obtain ⟨_, hw, hh, _⟩ := moveObstacle_x m v o
    rw [hw, hh]
    exact h

/-- Every speed the game assigns is a whole multiple of 0.4. -/
theorem speedForScore_lattice (s : ℚ) : ∃ j : ℤ, speedForScore s = 0.4 * (j : ℚ) := by
  unfold speedForScore Math.floor baseSpeed
  rcases min_choice (8 * (1 + ((⌊s / 100⌋ : ℤ) : ℚ) * 0.15)) (8 * 3 : ℚ) with h | h
  · refine ⟨20 + 3 * ⌊s / 100⌋, ?_⟩
    rw [h]
    push_cast
    ring
  · refine ⟨60, ?_⟩
    rw [h]
    norm_num

/-- In every reachable state the speed is a whole multiple of 0.4 and every
obstacle is a whole multiple of 0.4 to the left of its spawn position 800;
so no obstacle is ever at x = -1. -/
theorem reachable_obstacle_lattice (m : Math) (g : DinoGame) (hr : Reachable m g) :
    (∃ j : ℤ, g.gameSpeed = 0.4 * (j : ℚ)) ∧
    (∀ o ∈ g.obstacles, ∃ k : ℤ, o.x = 800 - 0.4 * (k : ℚ)) ∧
    (∀ o ∈ g.obstacles, o.x ≠ -1) := by
  have hinv : (∃ j : ℤ, g.gameSpeed = 0.4 * (j : ℚ)) ∧
      (∀ o ∈ g.obstacles, ∃ k : ℤ, o.x = 800 - 0.4 * (k : ℚ)) := by
    refine reachable_invariant m
      (fun g => (∃ j : ℤ, g.gameSpeed = 0.4 * (j : ℚ)) ∧
        (∀ o ∈ g.obstacles, ∃ k : ℤ, o.x = 800 - 0.4 * (k : ℚ)))
      ?_ ?_ ?_ ?_ ?_ ?_ ?_ ?_ ?_ g hr
    · intro page stored
      refine ⟨⟨20, ?_⟩, fun o ho => absurd ho (List.not_mem_nil _)⟩
      show (8 : ℚ) = 0.4 * ((20 : ℤ) : ℚ)
      norm_num
    · exact fun g b h => h
    · exact fun g b h => h
    · exact fun g t h => h
    · exact fun g _ h => h
    · intro g _ _ h
      obtain ⟨_, b, _, d⟩ := jump_spawn_fields m g
      show (∃ j : ℤ, (jump m g).gameSpeed = 0.4 * (j : ℚ)) ∧
        (∀ o ∈ (jump m g).obstacles, ∃ k : ℤ, o.x = 800 - 0.4 * (k : ℚ))
      rw [b, d]
      exact h
    · intro g _ _
      refine ⟨⟨20, ?_⟩, fun o ho => absurd ho (List.not_mem_nil _)⟩
      show baseSpeed = 0.4 * ((20 : ℤ) : ℚ)
      unfold baseSpeed
      norm_num
    · intro dt g h
      by_cases hplay : g.gameState = .playing
      swap
      · have hu : update m dt g = g := by
          unfold update
          rw [if_pos hplay]
        rw [hu]
        exact h
      obtain ⟨⟨j, hj⟩, hobs⟩ := h
      have hmoved : ∀ os : List Obstacle, (∀ o ∈ os, ∃ k : ℤ, o.x = 800 - 0.4 * (k : ℚ)) →
          ∀ o' ∈ moveObstacles m g.gameSpeed os, ∃ k : ℤ, o'.x = 800 - 0.4 * (k : ℚ) := by
        intro os hos o' ho'
        obtain ⟨⟨o, ho, rfl⟩, _⟩ := mem_moveObstacles m _ _ o' ho'
        obtain ⟨k, hk⟩ := hos o ho
        refine ⟨k + j, ?_⟩
        rw [(moveObstacle_x m g.gameSpeed o).1, hk, hj]
        push_cast
        ring
      refine ⟨?_, ?_⟩
      · rw [(update_score m dt g hplay).2]
        exact speedForScore_lattice _
      · obtain ⟨hyes, hno⟩ := update_spawn_cases m dt g hplay
        by_cases hspawn : g.obstacleTimer + 1 > obstacleFrequency g.gameSpeed
        · obtain ⟨fresh, hfresh, hlist, _⟩ := hyes hspawn
          rw [hlist]
          apply hmoved
          intro o ho
          rw [List.mem_append, List.mem_singleton] at ho
          rcases ho with ho | ho
          · exact hobs o ho
          · refine ⟨0, ?_⟩
            rw [ho, hfresh.1]
            norm_num
        · rw [(hno hspawn).1]
          exact hmoved _ hobs
    · intro g h
      refine ⟨h.1, ?_⟩
      intro o' ho'
      have hmem : o' ∈ g.obstacles.map fun o =>
          if o.type = .bird then
            { o with wingPhase := o.wingPhase + (0.3 + g.gameSpeed / baseSpeed * 0.2) }
          else o := ho'
      rw [List.mem_map] at hmem
      obtain ⟨o, ho, rfl⟩ := hmem
      split_ifs
      · exact h.2 o ho
      · exact h.2 o ho
  refine ⟨hinv.1, hinv.2, ?_⟩
  intro o ho hx
  obtain ⟨k, hk⟩ := hinv.2 o ho
  rw [hx] at hk
  have h2 : ((2 * k : ℤ) : ℚ) = ((4005 : ℤ) : ℚ) := by
    push_cast
    linarith
  have h3 : 2 * k = 4005 := by exact_mod_cast h2
  omega

/-! ## Claims -/

/-- C1: in phase Playing, `checkCollisions` moves the phase to GameOver
exactly when some obstacle's box inset by 2 overlaps the avatar's inset
hitbox, and when no obstacle overlaps it returns the state unchanged. -/
theorem checkCollisions_gameOver_iff (m : Math) (g : DinoGame)
    (hplay : g.gameState = .playing) :
    ((checkCollisions m g).gameState = .gameOver ↔
      ∃ o ∈ g.obstacles,
        isColliding
          { x := g.dino.x + 8, y := g.dino.y + 5
            width := g.dino.width - 16, height := g.dino.height - 10 }
          { x := o.x + 2, y := o.y + 2, width := o.width - 4, height := o.height - 4 }
          = true) ∧
    ((¬ ∃ o ∈ g.obstacles,
        isColliding
          { x := g.dino.x + 8, y := g.dino.y + 5
            width := g.dino.width - 16, height := g.dino.height - 10 }
          { x := o.x + 2, y := o.y + 2, width := o.width - 4, height := o.height - 4 }
          = true) →
      checkCollisions m g = g) := by
  have hany : (g.obstacles.any fun o => isColliding (dinoBox g.dino) (obstacleBox o)) = true ↔
      ∃ o ∈ g.obstacles,
        isColliding
          { x := g.dino.x + 8, y := g.dino.y + 5
            width := g.dino.width - 16, height := g.dino.height - 10 }
          { x := o.x + 2, y := o.y + 2, width := o.width - 4, height := o.height - 4 }
          = true := by
    simp [List.any_eq_true, dinoBox, obstacleBox]
  unfold checkCollisions
  rw [checkCollisionsLoop_eq]
  constructor
  · by_cases h : (g.obstacles.any fun o => isColliding (dinoBox g.dino) (obstacleBox o)) = true
    · simp only [h, if_true, gameOver_gameState, true_iff]
      exact hany.mp h
    · simp only [h, if_false, Bool.false_eq_true]
      rw [hplay]
      constructor
      · intro hc
        cases hc
      · intro hex
        exact absurd (hany.mpr hex) h
  · intro hno
    have h : ¬ (g.obstacles.any fun o => isColliding (dinoBox g.dino) (obstacleBox o)) = true :=
      fun h => hno (hany.mp h)
    simp only [h, if_false, Bool.false_eq_true]


/-- C1, witness: on the first frame of a started game there is no obstacle,
so the collision check returns the state unchanged. -/
theorem checkCollisions_gameOver_iff_witness :
    (idleRun 1).gameState = .playing ∧
    (¬ ∃ o ∈ (idleRun 1).obstacles,
        isColliding
          { x := (idleRun 1).dino.x + 8, y := (idleRun 1).dino.y + 5
            width := (idleRun 1).dino.width - 16, height := (idleRun 1).dino.height - 10 }
          { x := o.x + 2, y := o.y + 2, width := o.width - 4, height := o.height - 4 }
          = true) ∧
    checkCollisions mathZero (idleRun 1) = idleRun 1 :=
  have hplay : (idleRun 1).gameState = .playing := by decide!
  have hnone : ¬ ∃ o ∈ (idleRun 1).obstacles,
        isColliding
          { x := (idleRun 1).dino.x + 8, y := (idleRun 1).dino.y + 5
            width := (idleRun 1).dino.width - 16, height := (idleRun 1).dino.height - 10 }
          { x := o.x + 2, y := o.y + 2, width := o.width - 4, height := o.height - 4 }
          = true := by
    have hobs : (idleRun 1).obstacles = [] := by decide!
    rw [hobs]
    simp
  ⟨hplay, hnone, (checkCollisions_gameOver_iff mathZero (idleRun 1) hplay).2 hnone⟩

/-- C2, counterexample: with the duck key held, the first tick of a started
game leaves the avatar at y = 320 in phase Playing, above the clamp 300. -/
theorem playing_y_exceeds_300 :
    Reachable mathZero (duckedRun 1) ∧ (duckedRun 1).gameState = .playing ∧
      ¬ (duckedRun 1).dino.y ≤ 300 :=
  ⟨reachable_run _ _ _ _, by decide!, by decide!⟩

/-- C2, amended: in every reachable state in phase Playing the avatar's y
is at most 320, and it exceeds 300 only in the ducked ground pose, where
y = 320 and the height is 30. -/
theorem playing_y_bound (m : Math) (g : DinoGame) (hr : Reachable m g)
    (_hplay : g.gameState = .playing) :
    g.dino.y ≤ 320 ∧ (g.dino.y ≤ 300 ∨ (g.dino.y = 320 ∧ g.dino.height = 30)) := by
  have h := reachable_dino_y m g hr
  refine ⟨?_, h⟩
  rcases h with h | ⟨h, _⟩
  · linarith
  · rw [h]

/-- C2, witness: the amended bound at the state after two idle frames. -/
theorem playing_y_bound_witness :
    Reachable mathZero (idleRun 2) ∧ (idleRun 2).gameState = .playing ∧
      ((idleRun 2).dino.y ≤ 320 ∧
        ((idleRun 2).dino.y ≤ 300 ∨ ((idleRun 2).dino.y = 320 ∧ (idleRun 2).dino.height = 30))) :=
  ⟨reachable_run _ _ _ _, by decide!,
    playing_y_bound mathZero (idleRun 2) (reachable_run _ _ _ _) (by decide!)⟩

/-- C3: after a tick in phase Playing the speed is
min(baseSpeed * (1 + 0.15 * floor(score / 100)), 3 * baseSpeed) for the score
that tick produced; this function of the score is monotone, never above 24,
and takes the values 8, 20 (multiplier 2.5) and 24 at scores 0, 1000 and
100000. -/
theorem update_gameSpeed (m : Math) (dt : ℚ) (g : DinoGame) (hplay : g.gameState = .playing) :
    (update m dt g).gameSpeed = speedForScore (update m dt g).score ∧
    (∀ s : ℚ, speedForScore s = min (8 * (1 + 0.15 * ((⌊s / 100⌋ : ℤ) : ℚ))) (3 * 8)) ∧
    Monotone speedForScore ∧
    (∀ s : ℚ, speedForScore s ≤ 3 * baseSpeed) ∧
    3 * baseSpeed = 24 ∧
    speedForScore 0 = 8 ∧
    (1 + Math.floor (1000 / 100) * 0.15 = 2.5 ∧ speedForScore 1000 = 20) ∧
    speedForScore 100000 = 24 := by
  have hform : ∀ s : ℚ, speedForScore s = min (8 * (1 + 0.15 * ((⌊s / 100⌋ : ℤ) : ℚ))) (3 * 8) := by
    intro s
    unfold speedForScore Math.floor baseSpeed
    congr 1 <;> ring
  refine ⟨?_, hform, ?_, ?_, ?_, ?_, ?_, ?_⟩
  · unfold update
    simp only [hplay, ne_eq, not_true_eq_false, if_false]
    rfl
  · intro a b hab
    rw [hform, hform]
    have hfl : ((⌊a / 100⌋ : ℤ) : ℚ) ≤ ((⌊b / 100⌋ : ℤ) : ℚ) := by
      exact_mod_cast Int.floor_mono (div_le_div_of_nonneg_right hab (by norm_num))
    exact min_le_min (by linarith) (le_refl _)
  · intro s
    rw [hform]
    unfold baseSpeed
    exact min_le_right _ _
  · unfold baseSpeed
    norm_num
  · decide!
  · constructor
    · decide!
    · decide!
  · decide!

/-- C3, witness: the speed after the first tick of a started game. -/
theorem update_gameSpeed_witness :
    (idleRun 0).gameState = .playing ∧
      (update mathZero 10 (idleRun 0)).gameSpeed =
        speedForScore (update mathZero 10 (idleRun 0)).score :=
  ⟨by decide!, (update_gameSpeed mathZero 10 (idleRun 0) (by decide!)).1⟩

/-- C4: the spawn threshold max(60, 150 - 3 * speed) is antitone in the speed
and never below 60, with values 126, 78 and 60 at speeds 8, 24 and 60; an
obstacle is appended and the timer reset to 0 exactly when the incremented
timer is strictly above the threshold, and otherwise the timer is just
incremented. -/
theorem obstacleFrequency_spawn (m : Math) (g : DinoGame) :
    (∀ v : ℚ, obstacleFrequency v = max 60 (150 - 3 * v)) ∧
    Antitone obstacleFrequency ∧
    (∀ v : ℚ, 60 ≤ obstacleFrequency v) ∧
    obstacleFrequency 8 = 126 ∧ obstacleFrequency 24 = 78 ∧ obstacleFrequency 60 = 60 ∧
    (g.obstacleTimer + 1 > obstacleFrequency g.gameSpeed →
      (∃ o : Obstacle, o.x = 800 ∧ (spawnObstacle m g).obstacles = g.obstacles ++ [o]) ∧
      (spawnObstacle m g).obstacleTimer = 0 ∧
      (updateObstacles m g).obstacleTimer = 0 ∧
      (updateObstacles m g).randomCalls > g.randomCalls) ∧
    (¬ g.obstacleTimer + 1 > obstacleFrequency g.gameSpeed →
      (spawnObstacle m g).obstacles = g.obstacles ∧
      (spawnObstacle m g).obstacleTimer = g.obstacleTimer + 1 ∧
      (updateObstacles m g).obstacleTimer = g.obstacleTimer + 1 ∧
      (updateObstacles m g).randomCalls = g.randomCalls) := by
  have hform : ∀ v : ℚ, obstacleFrequency v = max 60 (150 - 3 * v) := by
    intro v
    unfold obstacleFrequency
    rw [mul_comm]
  refine ⟨hform, ?_, ?_, ?_, ?_, ?_, ?_, ?_⟩
  · intro a b hab
    rw [hform, hform]
    exact max_le_max (le_refl _) (by linarith)
  · intro v
    exact le_max_left _ _
  · decide!
  · decide!
  · decide!
  · intro h
    obtain ⟨o, hx, hobs, hcalls⟩ :=
      generateObstacle_spec m { g with obstacleTimer := g.obstacleTimer + 1 }
    have hs : spawnObstacle m g =
        { generateObstacle m { g with obstacleTimer := g.obstacleTimer + 1 } with
          obstacleTimer := 0 } := by
      unfold spawnObstacle
      dsimp only
      rw [if_pos h]
    refine ⟨⟨o, hx, ?_⟩, ?_, ?_, ?_⟩
    · rw [hs]
      exact hobs
    · rw [hs]
    · unfold updateObstacles
      rw [hs]
    · unfold updateObstacles
      rw [hs]
      exact hcalls
  · intro h
    have hs : spawnObstacle m g = { g with obstacleTimer := g.obstacleTimer + 1 } := by
      unfold spawnObstacle
      dsimp only
      rw [if_neg h]
    unfold updateObstacles
    rw [hs]
    exact ⟨rfl, rfl, rfl, rfl⟩

/-- C5: the initial phase is Waiting, and an event changes the phase only
from Waiting to Playing on a jump intent, from Playing to GameOver on an
animation frame whose tick finds an overlapping obstacle, or from GameOver
to Waiting on a jump intent; a jump intent in Waiting is `startGame` alone
and leaves the avatar and the particles as they were. -/
theorem phase_edges (m : Math) :
    (∀ page stored, (DinoGame.new m page stored).gameState = .waiting) ∧
    (∀ (e : Event) (g : DinoGame),
      (step m e g).gameState = g.gameState ∨
      (g.gameState = .waiting ∧ (step m e g).gameState = .playing ∧ e.isJumpIntent = true) ∨
      (g.gameState = .playing ∧ (step m e g).gameState = .gameOver ∧
        ∃ t, e = .animationFrame t ∧ t - g.lastTime ≥ 1000 / 120 ∧
          ∃ o ∈ (advance m { g with lastTime := t }).obstacles,
            isColliding (dinoBox (advance m { g with lastTime := t }).dino) (obstacleBox o)
              = true) ∨
      (g.gameState = .gameOver ∧ (step m e g).gameState = .waiting ∧ e.isJumpIntent = true)) ∧
    (∀ g : DinoGame, g.gameState = .waiting →
      handleJump m g = startGame g ∧ (handleJump m g).gameState = .playing ∧
        (handleJump m g).dino = g.dino ∧ (handleJump m g).particles = g.particles) ∧
    (∀ g : DinoGame, g.gameState = .gameOver →
      handleJump m g = resetGame g ∧ (handleJump m g).gameState = .waiting) ∧
    (∀ (dt : ℚ) (g : DinoGame), g.gameState = .playing →
      ((update m dt g).gameState = .gameOver ↔
        ∃ o ∈ (advance m g).obstacles,
          isColliding (dinoBox (advance m g).dino) (obstacleBox o) = true)) := by
  have hjump : ∀ (e : Event) (g g' : DinoGame), e.isJumpIntent = true →
      g'.gameState = g.gameState →
      ((handleJump m g').gameState = g.gameState ∨
      (g.gameState = .waiting ∧ (handleJump m g').gameState = .playing ∧
        e.isJumpIntent = true) ∨
      (g.gameState = .playing ∧ (handleJump m g').gameState = .gameOver ∧
        ∃ t, e = .animationFrame t ∧ t - g.lastTime ≥ 1000 / 120 ∧
          ∃ o ∈ (advance m { g with lastTime := t }).obstacles,
            isColliding (dinoBox (advance m { g with lastTime := t }).dino) (obstacleBox o)
              = true) ∨
      (g.gameState = .gameOver ∧ (handleJump m g').gameState = .waiting ∧
        e.isJumpIntent = true)) := by
    intro e g g' he hg
    rcases handleJump_phase m g' with h | ⟨h1, h2⟩ | ⟨h1, h2⟩
    · left
      rw [h, hg]
    · right; left
      exact ⟨hg ▸ h1, h2, he⟩
    · right; right; right
      exact ⟨hg ▸ h1, h2, he⟩
  refine ⟨fun _ _ => rfl, ?_, ?_, ?_, ?_⟩
  · intro e g
    cases e with
    | keydown j d =>
      have hs : step m (.keydown j d) g = keydownDuck d (keydownJump m j g) := rfl
      rw [hs, keydownDuck_gameState]
      by_cases hj : j = true ∧ g.isJumping = false
      · have hk : keydownJump m j g = handleJump m { g with isJumping := true } := by
          unfold keydownJump
          rw [if_pos hj]
        rw [hk]
        exact hjump (.keydown j d) g { g with isJumping := true } hj.1 rfl
      · have hk : keydownJump m j g = g := by
          unfold keydownJump
          rw [if_neg hj]
        rw [hk]
        left; rfl
    | keyup j d =>
      left
      exact keyup_gameState j d g
    | click => exact hjump .click g g rfl rfl
    | touchstart => exact hjump .touchstart g g rfl rfl
    | animationFrame t =>
      have hs : step m (.animationFrame t) g = gameLoop m t g := rfl
      rw [hs]
      rcases gameLoop_phase m t g with h | ⟨hplay, ht, h⟩
      · left
        exact h
      · rw [h, checkCollisions_gameState]
        split_ifs with hany
        · right; right; left
          refine ⟨hplay, rfl, t, rfl, ht, ?_⟩
          simpa [List.any_eq_true] using hany
        · left
          rw [advance_gameState]
  · intro g hw
    have h : handleJump m g = startGame g := by
      unfold handleJump
      rw [if_pos hw]
    rw [h]
    exact ⟨rfl, rfl, rfl, rfl⟩
  · intro g ho
    have h : handleJump m g = resetGame g := by
      unfold handleJump
      rw [if_neg (by rw [ho]; decide), if_neg (by rw [ho]; simp), if_pos ho]
    rw [h]
    exact ⟨rfl, rfl⟩
  · intro dt g hplay
    rw [update_gameState, if_pos hplay, checkCollisions_gameState]
    split_ifs with hany
    · simp only [true_iff]
      simpa [List.any_eq_true] using hany
    · rw [advance_gameState, hplay]
      constructor
      · intro hc
        cases hc
      · intro hex
        exact absurd (by simpa [List.any_eq_true] using hex) hany

/-- C6: outside phase Playing, `update` returns the state it was given,
whatever the elapsed time. -/
theorem update_not_playing (m : Math) (dt : ℚ) (g : DinoGame)
    (h : g.gameState = .waiting ∨ g.gameState = .gameOver) :
    update m dt g = g := by
  unfold update
  rcases h with h | h <;> simp [h]

/-- C6, witness: a tick on the freshly constructed game changes nothing. -/
theorem update_not_playing_witness :
    ((DinoGame.new mathZero page0 none).gameState = .waiting ∨
      (DinoGame.new mathZero page0 none).gameState = .gameOver) ∧
    update mathZero 16 (DinoGame.new mathZero page0 none) = DinoGame.new mathZero page0 none :=
  ⟨Or.inl rfl, update_not_playing mathZero 16 (DinoGame.new mathZero page0 none) (Or.inl rfl)⟩

/-- C7: after `gameOver` the best score is max(previous best, floor(score)),
and the store is written (once, with floor(score)) exactly when floor(score)
is strictly greater than the previous best; starting from best 0, dying at
score 150 stores 150, and dying at score 90 after a reset leaves 150 stored
without a further write. -/
theorem gameOver_highScore (m : Math) (g : DinoGame) :
    (gameOver m g).highScore = max g.highScore ⌊g.score⌋ ∧
    (⌊g.score⌋ > g.highScore →
      (gameOver m g).setItemCalls = g.setItemCalls + 1 ∧
        (gameOver m g).localStorage = some ⌊g.score⌋) ∧
    (¬ ⌊g.score⌋ > g.highScore →
      (gameOver m g).setItemCalls = g.setItemCalls ∧
        (gameOver m g).localStorage = g.localStorage) ∧
    (gameOver m { g with score := 150, highScore := 0 }).highScore = 150 ∧
    (gameOver m { g with score := 150, highScore := 0 }).localStorage = some 150 ∧
    (gameOver m
      { resetGame (gameOver m { g with score := 150, highScore := 0 }) with
        gameState := .playing, score := 90 }).highScore = 150 ∧
    (gameOver m
      { resetGame (gameOver m { g with score := 150, highScore := 0 }) with
        gameState := .playing, score := 90 }).localStorage = some 150 ∧
    (gameOver m
      { resetGame (gameOver m { g with score := 150, highScore := 0 }) with
        gameState := .playing, score := 90 }).setItemCalls =
      (gameOver m { g with score := 150, highScore := 0 }).setItemCalls := by
  have hfirst : ∀ x : DinoGame, x.score = 150 → x.highScore = 0 →
      (gameOver m x).highScore = 150 ∧ (gameOver m x).localStorage = some 150 := by
    intro x hs hh
    have hfl : ⌊x.score⌋ = 150 := by
      rw [hs]
      norm_num
    have hgt : ⌊x.score⌋ > x.highScore := by
      rw [hfl, hh]
      norm_num
    obtain ⟨c1, c2, _⟩ := gameOver_beaten m x hgt
    rw [hfl] at c1 c2
    exact ⟨c1, c2⟩
  have hsecond : ∀ x : DinoGame, x.highScore = 150 → x.localStorage = some 150 →
      (gameOver m { resetGame x with gameState := .playing, score := 90 }).highScore = 150 ∧
      (gameOver m { resetGame x with gameState := .playing, score := 90 }).localStorage
        = some 150 ∧
      (gameOver m { resetGame x with gameState := .playing, score := 90 }).setItemCalls
        = x.setItemCalls := by
    intro x hh hl
    have hng : ¬ ⌊({ resetGame x with gameState := .playing, score := 90 } : DinoGame).score⌋ >
        ({ resetGame x with gameState := .playing, score := 90 } : DinoGame).highScore := by
      show ¬ ⌊(90 : ℚ)⌋ > x.highScore
      rw [hh]
      norm_num
    obtain ⟨b1, b2, b3⟩ := gameOver_not_beaten m _ hng
    rw [b1, b2, b3]
    exact ⟨hh, hl, rfl⟩
  obtain ⟨a1, a2⟩ := hfirst { g with score := 150, highScore := 0 } rfl rfl
  obtain ⟨b1, b2, b3⟩ := hsecond _ a1 a2
  refine ⟨?_, ?_, ?_, a1, a2, b1, b2, b3⟩
  · by_cases h : ⌊g.score⌋ > g.highScore
    · rw [(gameOver_beaten m g h).1, max_eq_right (le_of_lt h)]
    · rw [(gameOver_not_beaten m g h).1, max_eq_left (not_lt.mp h)]
  · intro h
    exact ⟨(gameOver_beaten m g h).2.2, (gameOver_beaten m g h).2.1⟩
  · intro h
    exact ⟨(gameOver_not_beaten m g h).2.2, (gameOver_not_beaten m g h).2.1⟩

/-- C8: in a reachable state in phase GameOver a jump intent gives phase
Waiting, score 0, no obstacles, no particles, the avatar at x = 80, y = 300
with velY = 0 and both flags cleared, the hint shown and the banner hidden. -/
theorem handleJump_gameOver (m : Math) (g : DinoGame) (hr : Reachable m g)
    (hover : g.gameState = .gameOver) :
    (handleJump m g).gameState = .waiting ∧ (handleJump m g).score = 0 ∧
    (handleJump m g).obstacles = [] ∧ (handleJump m g).particles = [] ∧
    (handleJump m g).dino.x = 80 ∧ (handleJump m g).dino.y = 300 ∧
    (handleJump m g).dino.velY = 0 ∧ (handleJump m g).dino.jumping = false ∧
    (handleJump m g).dino.ducking = false ∧
    (handleJump m g).controlHint = .block ∧ (handleJump m g).gameOverElement = .none := by
  have h : handleJump m g = resetGame g := by
    unfold handleJump
    rw [if_neg (by rw [hover]; decide), if_neg (by rw [hover]; simp), if_pos hover]
  rw [h]
  exact ⟨rfl, rfl, rfl, rfl, (reachable_dino_x m g hr).1, rfl, rfl, rfl, rfl, rfl, rfl⟩

/-- C8, witness: the jump intent after the crash of the ducked run. -/
theorem handleJump_gameOver_witness :
    Reachable mathZero (duckedRun 212) ∧ (duckedRun 212).gameState = .gameOver ∧
    ((handleJump mathZero (duckedRun 212)).gameState = .waiting ∧
      (handleJump mathZero (duckedRun 212)).score = 0 ∧
      (handleJump mathZero (duckedRun 212)).obstacles = [] ∧
      (handleJump mathZero (duckedRun 212)).particles = [] ∧
      (handleJump mathZero (duckedRun 212)).dino.x = 80 ∧
      (handleJump mathZero (duckedRun 212)).dino.y = 300 ∧
      (handleJump mathZero (duckedRun 212)).dino.velY = 0 ∧
      (handleJump mathZero (duckedRun 212)).dino.jumping = false ∧
      (handleJump mathZero (duckedRun 212)).dino.ducking = false ∧
      (handleJump mathZero (duckedRun 212)).controlHint = .block ∧
      (handleJump mathZero (duckedRun 212)).gameOverElement = .none) :=
  ⟨reachable_run _ _ _ _, duckedRun_crash.1,
    handleJump_gameOver mathZero (duckedRun 212) (reachable_run _ _ _ _) duckedRun_crash.1⟩

/-- C9, counterexample: the ducked run reaches GameOver on frame 212, and
`resetGame` then leaves the cloud timer at 212 and the avatar's height at 30,
whereas the constructor sets them to 0 and 45. -/
theorem resetGame_not_startup :
    Reachable mathZero (duckedRun 212) ∧ (duckedRun 212).gameState = .gameOver ∧
    (resetGame (duckedRun 212)).cloudTimer = 212 ∧
    (DinoGame.new mathZero page0 none).cloudTimer = 0 ∧
    (resetGame (duckedRun 212)).dino.height = 30 ∧
    (DinoGame.new mathZero page0 none).dino.height = 45 :=
  ⟨reachable_run _ _ _ _, duckedRun_crash.1, duckedRun_crash.2.1, rfl, duckedRun_crash.2.2, rfl⟩

/-- C9, amended: in a reachable state in phase GameOver, `resetGame` sets the
phase, score, speed, obstacle timer, frame counter, obstacle and particle
lists and the avatar's x, y, width, velocity and flags to the values the
constructor sets, and leaves the cloud timer and the clouds as they are. -/
theorem resetGame_startup (m : Math) (g : DinoGame) (hr : Reachable m g)
    (_hover : g.gameState = .gameOver) (page : Page) (stored : Option ℤ) :
    ((resetGame g).gameState = .waiting ∧ (resetGame g).score = 0 ∧
      (resetGame g).gameSpeed = baseSpeed ∧ (resetGame g).obstacleTimer = 0 ∧
      (resetGame g).frameCount = 0 ∧ (resetGame g).obstacles = [] ∧
      (resetGame g).particles = []) ∧
    ((resetGame g).gameState = (DinoGame.new m page stored).gameState ∧
      (resetGame g).score = (DinoGame.new m page stored).score ∧
      (resetGame g).gameSpeed = (DinoGame.new m page stored).gameSpeed ∧
      (resetGame g).obstacleTimer = (DinoGame.new m page stored).obstacleTimer ∧
      (resetGame g).frameCount = (DinoGame.new m page stored).frameCount ∧
      (resetGame g).obstacles = (DinoGame.new m page stored).obstacles ∧
      (resetGame g).particles = (DinoGame.new m page stored).particles) ∧
    ((resetGame g).dino.x = (DinoGame.new m page stored).dino.x ∧
      (resetGame g).dino.y = (DinoGame.new m page stored).dino.y ∧
      (resetGame g).dino.width = (DinoGame.new m page stored).dino.width ∧
      (resetGame g).dino.velY = (DinoGame.new m page stored).dino.velY ∧
      (resetGame g).dino.jumping = (DinoGame.new m page stored).dino.jumping ∧
      (resetGame g).dino.ducking = (DinoGame.new m page stored).dino.ducking) ∧
    ((resetGame g).cloudTimer = g.cloudTimer ∧ (resetGame g).clouds = g.clouds) :=
  ⟨⟨rfl, rfl, rfl, rfl, rfl, rfl, rfl⟩, ⟨rfl, rfl, rfl, rfl, rfl, rfl, rfl⟩,
    ⟨(reachable_dino_x m g hr).1, rfl, (reachable_dino_x m g hr).2, rfl, rfl, rfl⟩, ⟨rfl, rfl⟩⟩

/-- C9, witness: the amended reset at the crash of the ducked run. -/
theorem resetGame_startup_witness :
    Reachable mathZero (duckedRun 212) ∧ (duckedRun 212).gameState = .gameOver ∧
    (resetGame (duckedRun 212)).dino.x = (DinoGame.new mathZero page0 none).dino.x ∧
    (resetGame (duckedRun 212)).cloudTimer = (duckedRun 212).cloudTimer :=
  ⟨reachable_run _ _ _ _, duckedRun_crash.1,
    (resetGame_startup mathZero (duckedRun 212) (reachable_run _ _ _ _) duckedRun_crash.1
      page0 none).2.2.1.1,
    (resetGame_startup mathZero (duckedRun 212) (reachable_run _ _ _ _) duckedRun_crash.1
      page0 none).2.2.2.1⟩

/-- C10: `isColliding` is symmetric in its two rectangles. -/
theorem isColliding_comm (a b : Rect) : isColliding a b = isColliding b a := by
  unfold isColliding
  rw [Bool.eq_iff_iff]
  simp only [Bool.and_eq_true, decide_eq_true_eq, gt_iff_lt]
  tauto

/-- C11, counterexample: the rectangle of width 0 and height 0 at the origin
does not overlap itself, since `0 < 0 + 0` is false. -/
theorem degenerate_rect_no_overlap :
    isColliding { x := 0, y := 0, width := 0, height := 0 }
      { x := 0, y := 0, width := 0, height := 0 } = false := by
  decide!

/-- C11, amended: `isColliding r r` holds exactly when `r.x < r.x + r.width`
and `r.y < r.y + r.height`; in every reachable state this is so for the
avatar's inset hitbox, which is 34 wide and 35 or 20 high, and for the inset
box of every obstacle, which is 16 by 36 or 31 by 21. -/
theorem hitbox_overlaps_itself (m : Math) (g : DinoGame) (hr : Reachable m g) :
    (∀ r : Rect, isColliding r r = true ↔ (r.x < r.x + r.width ∧ r.y < r.y + r.height)) ∧
    (g.dino.width - 16 = 34 ∧ (g.dino.height - 10 = 35 ∨ g.dino.height - 10 = 20)) ∧
    isColliding
      { x := g.dino.x + 8, y := g.dino.y + 5
        width := g.dino.width - 16, height := g.dino.height - 10 }
      { x := g.dino.x + 8, y := g.dino.y + 5
        width := g.dino.width - 16, height := g.dino.height - 10 } = true ∧
    (∀ o ∈ g.obstacles,
      ((o.width - 4 = 16 ∧ o.height - 4 = 36) ∨ (o.width - 4 = 31 ∧ o.height - 4 = 21)) ∧
      isColliding
        { x := o.x + 2, y := o.y + 2, width := o.width - 4, height := o.height - 4 }
        { x := o.x + 2, y := o.y + 2, width := o.width - 4, height := o.height - 4 } = true) := by
  have hw := (reachable_dino_x m g hr).2
  have hh := reachable_dino_height m g hr
  have hdw : g.dino.width - 16 = 34 := by
    rw [hw]
    norm_num
  have hdh : g.dino.height - 10 = 35 ∨ g.dino.height - 10 = 20 := by
    rcases hh with h | h <;> rw [h]
    · left; norm_num
    · right; norm_num
  refine ⟨isColliding_self_iff, ⟨hdw, hdh⟩, ?_, ?_⟩
  · rw [isColliding_self_iff]
    dsimp only
    rw [hdw]
    rcases hdh with h | h <;> rw [h] <;> constructor <;> linarith
  · intro o ho
    have hsize := reachable_obstacle_size m g hr o ho
    have hbox : (o.width - 4 = 16 ∧ o.height - 4 = 36) ∨ (o.width - 4 = 31 ∧ o.height - 4 = 21) := by
      rcases hsize with ⟨h1, h2⟩ | ⟨h1, h2⟩ <;> rw [h1, h2]
      · left; constructor <;> norm_num
      · right; constructor <;> norm_num
    refine ⟨hbox, ?_⟩
    rw [isColliding_self_iff]
    dsimp only
    rcases hbox with ⟨h1, h2⟩ | ⟨h1, h2⟩ <;> rw [h1, h2] <;> constructor <;> linarith

/-- C11, witness: after 130 idle frames the list holds one cactus; its inset
box and the avatar's hitbox overlap themselves. -/
theorem hitbox_overlaps_itself_witness :
    Reachable mathZero (idleRun 130) ∧
    (idleRun 130).obstacles.map (fun o => (o.type, o.x)) = [(.cactus, 768)] ∧
    isColliding
      { x := (idleRun 130).dino.x + 8, y := (idleRun 130).dino.y + 5
        width := (idleRun 130).dino.width - 16, height := (idleRun 130).dino.height - 10 }
      { x := (idleRun 130).dino.x + 8, y := (idleRun 130).dino.y + 5
        width := (idleRun 130).dino.width - 16, height := (idleRun 130).dino.height - 10 }
      = true ∧
    (∀ o ∈ (idleRun 130).obstacles,
      ((o.width - 4 = 16 ∧ o.height - 4 = 36) ∨ (o.width - 4 = 31 ∧ o.height - 4 = 21)) ∧
      isColliding
        { x := o.x + 2, y := o.y + 2, width := o.width - 4, height := o.height - 4 }
        { x := o.x + 2, y := o.y + 2, width := o.width - 4, height := o.height - 4 } = true) :=
  ⟨reachable_run _ _ _ _, by decide!,
    (hitbox_overlaps_itself mathZero (idleRun 130) (reachable_run _ _ _ _)).2.2.1,
    (hitbox_overlaps_itself mathZero (idleRun 130) (reachable_run _ _ _ _)).2.2.2⟩

/-- C14: `updateParticles` moves every particle (x by velX, y by the previous
velY, velY by 0.1, life by -1) and keeps, in their order, exactly the moved
particles whose life is still positive; so every remaining particle has
life > 0. -/
theorem updateParticles_spec (g : DinoGame) :
    (updateParticles g).particles =
      (g.particles.map fun p =>
        { p with x := p.x + p.velX, y := p.y + p.velY, velY := p.velY + 0.1
                 life := p.life - 1 }).filter (fun p => decide (0 < p.life)) ∧
    (∀ p ∈ (updateParticles g).particles, p.life > 0) ∧
    (∀ p ∈ g.particles, p.life - 1 ≤ 0 →
      ∀ q ∈ (updateParticles g).particles,
        q ≠ { p with x := p.x + p.velX, y := p.y + p.velY, velY := p.velY + 0.1
                     life := p.life - 1 }) := by
  have heq := updateParticles_eq g
  have hpos : ∀ p ∈ (updateParticles g).particles, p.life > 0 := by
    intro p hp
    rw [heq, List.mem_filter] at hp
    exact of_decide_eq_true hp.2
  refine ⟨heq, hpos, ?_⟩
  intro p _ hdead q hq hqp
  have hlife := hpos q hq
  rw [hqp] at hlife
  exact absurd hlife (not_lt.mpr hdead)

/-- C16: the move loop of `updateObstacles` lowers every obstacle's x by
`gameSpeed`, leaving its width, and keeps, in their order, exactly the moved
obstacles with x + width not below 0; so every remaining obstacle has
x + width >= 0. -/
theorem moveObstacles_spec (m : Math) (gameSpeed : ℚ) (obstacles : List Obstacle) :
    moveObstacles m gameSpeed obstacles =
      (obstacles.map (moveObstacle m gameSpeed)).filter
        (fun o => decide (¬ o.x + o.width < 0)) ∧
    (∀ o : Obstacle, (moveObstacle m gameSpeed o).x = o.x - gameSpeed ∧
      (moveObstacle m gameSpeed o).width = o.width) ∧
    (∀ o ∈ moveObstacles m gameSpeed obstacles, o.x + o.width ≥ 0) ∧
    (∀ g : DinoGame, (updateObstacles m g).obstacles =
      moveObstacles m g.gameSpeed (spawnObstacle m g).obstacles) := by
  refine ⟨moveObstacles_eq m gameSpeed obstacles, ?_, ?_, fun _ => rfl⟩
  · intro o
    exact ⟨(moveObstacle_x m gameSpeed o).1, (moveObstacle_x m gameSpeed o).2.1⟩
  · intro o ho
    exact not_lt.mp (mem_moveObstacles m gameSpeed obstacles o ho).2

/-- C15: a constructed game has 3 clouds and every reachable state has at
most 5; `updateClouds` keeps the number of clouds unless the incremented cloud
timer exceeds 800, and then appends one cloud and drops the first (oldest)
one when that makes more than 5. -/
theorem clouds_at_most_five (m : Math) (g : DinoGame) (hr : Reachable m g) :
    g.clouds.length ≤ 5 ∧
    (∀ page stored, (DinoGame.new m page stored).clouds.length = 3) ∧
    (∀ s : DinoGame, ¬ s.cloudTimer + 1 > 800 →
      (updateClouds m s).clouds.length = s.clouds.length) ∧
    (∀ s : DinoGame, s.cloudTimer + 1 > 800 →
      (driftClouds m s.gameSpeed s.clouds s.randomCalls).1.length = s.clouds.length ∧
      ∃ c : Cloud, (updateClouds m s).clouds =
        if ((driftClouds m s.gameSpeed s.clouds s.randomCalls).1 ++ [c]).length > 5 then
          ((driftClouds m s.gameSpeed s.clouds s.randomCalls).1 ++ [c]).tail
        else (driftClouds m s.gameSpeed s.clouds s.randomCalls).1 ++ [c]) := by
  refine ⟨reachable_clouds m g hr, fun _ _ => rfl, ?_, ?_⟩
  · intro s hs
    rw [updateClouds_idle m s hs, driftClouds_length]
  · intro s hs
    exact ⟨driftClouds_length _ _ _ _, updateClouds_add m s hs⟩

/-- C15, witness: the bound after three idle frames. -/
theorem clouds_at_most_five_witness :
    Reachable mathZero (idleRun 3) ∧ (idleRun 3).clouds.length ≤ 5 :=
  ⟨reachable_run _ _ _ _, (clouds_at_most_five mathZero (idleRun 3) (reachable_run _ _ _ _)).1⟩

/-- C17: in every reachable state the avatar's y is at least 148, hence not
negative; a jump from y = 300 with jumpPower 16 and gravity 0.8 is at y = 148
after 19 ticks, stays in the air below the ground line for ticks 1 to 38, and
lands with jumping = false on tick 39; while jumping is true, `jump` and a
jump intent in phase Playing change nothing. -/
theorem jump_apex (m : Math) (g : DinoGame) (hr : Reachable m g) :
    (148 ≤ g.dino.y ∧ 0 ≤ g.dino.y) ∧
    (jumpPower = 16 ∧ gravity = 0.8) ∧
    (∀ d : Dino, d.jumping = true → d.velY = -jumpPower → d.y = 300 →
      (dinoPhysics^[19] d).y = 148 ∧
      (∀ k : ℕ, k ≤ 38 → (dinoPhysics^[k] d).jumping = true ∧ 148 ≤ (dinoPhysics^[k] d).y) ∧
      (∀ k : ℕ, 1 ≤ k → k ≤ 38 → (dinoPhysics^[k] d).y < 300) ∧
      (dinoPhysics^[39] d).jumping = false ∧ (dinoPhysics^[39] d).velY = 0 ∧
      (dinoPhysics^[39] d).y = (if d.ducking = true then 320 else 300)) ∧
    (∀ (dt : ℚ) (s : DinoGame), s.gameState = .playing →
      (update m dt s).dino = dinoPhysics s.dino) ∧
    (∀ s : DinoGame, s.gameState = .playing → s.dino.jumping = false →
      (handleJump m s).dino = { s.dino with velY := -jumpPower, jumping := true }) ∧
    (∀ s : DinoGame, s.dino.jumping = true →
      jump m s = s ∧ (s.gameState = .playing → handleJump m s = s)) := by
  have hy := arc_y_ge g.dino (reachable_arc m g hr)
  refine ⟨⟨hy, by linarith⟩, ⟨rfl, rfl⟩, ?_, ?_, ?_, ?_⟩
  · intro d hj hv hy0
    obtain ⟨l1, l2, l3⟩ := jump_landing d hj hv hy0
    refine ⟨?_, ?_, ?_, l1, l2, l3⟩
    · rw [(jump_trajectory d hj hv hy0 19 (by decide)).2.2.1]
      norm_num
    · intro k hk
      obtain ⟨a, _, c, _⟩ := jump_trajectory d hj hv hy0 k hk
      refine ⟨a, ?_⟩
      rw [c]
      exact arc_apex k hk
    · intro k h1 hk
      rw [(jump_trajectory d hj hv hy0 k hk).2.2.1]
      exact arc_above_ground k h1 hk
  · intro dt s hs
    rw [update_dino, if_pos hs]
  · intro s hs hj
    have h : handleJump m s = jump m s := by
      unfold handleJump
      rw [if_neg (by rw [hs]; decide), if_pos ⟨hs, hj⟩]
    rw [h, jump_dino, if_pos hj]
  · intro s hj
    have hjump : jump m s = s := by
      unfold jump
      rw [hj]
      rfl
    refine ⟨hjump, ?_⟩
    intro hs
    unfold handleJump
    rw [if_neg (by rw [hs]; decide), if_neg (by rw [hj]; simp), if_neg (by rw [hs]; decide)]

/-- C17, witness: the run that jumps at once is at y = 148 after 19 frames,
still in the air after 38 and back at y = 300 after 39. -/
theorem jump_apex_witness :
    Reachable mathZero (jumpRun 19) ∧
    (148 ≤ (jumpRun 19).dino.y ∧ 0 ≤ (jumpRun 19).dino.y) ∧
    (jumpRun 19).dino.y = 148 ∧ (jumpRun 38).dino.jumping = true ∧
    (jumpRun 39).dino.jumping = false ∧ (jumpRun 39).dino.y = 300 :=
  ⟨reachable_run _ _ _ _, (jump_apex mathZero (jumpRun 19) (reachable_run _ _ _ _)).1,
    by decide!, by decide!, by decide!, by decide!⟩

/-- C19: in phase Playing with the avatar at y = 320, velY = 0 and
jumping = false, a jump intent gives the impulse, the next tick integrates
to 304.8, which is clamped, and leaves jumping = false, velY = 0 and y = 320
when the duck flag is still set and y = 300 when it is not or when the duck
key was released in between. -/
theorem ducked_jump_no_height (m : Math) (dt : ℚ) (g : DinoGame)
    (hplay : g.gameState = .playing) (hy : g.dino.y = 320) (_hv : g.dino.velY = 0)
    (hj : g.dino.jumping = false) :
    ((handleJump m g).dino.jumping = true ∧ (handleJump m g).dino.velY = -16 ∧
      (handleJump m g).dino.y + ((handleJump m g).dino.velY + gravity) = 304.8) ∧
    ((update m dt (handleJump m g)).dino.jumping = false ∧
      (update m dt (handleJump m g)).dino.velY = 0 ∧
      (update m dt (handleJump m g)).dino.y = (if g.dino.ducking = true then 320 else 300)) ∧
    ((update m dt (keyup false true (handleJump m g))).dino.jumping = false ∧
      (update m dt (keyup false true (handleJump m g))).dino.velY = 0 ∧
      (update m dt (keyup false true (handleJump m g))).dino.y = 300) := by
  have h : handleJump m g = jump m g := by
    unfold handleJump
    rw [if_neg (by rw [hplay]; decide), if_pos ⟨hplay, hj⟩]
  have hd : (handleJump m g).dino = { g.dino with velY := -jumpPower, jumping := true } := by
    rw [h, jump_dino, if_pos hj]
  have hs : (handleJump m g).gameState = .playing := by
    rw [h, jump_gameState, hplay]
  have hsum : (handleJump m g).dino.y + ((handleJump m g).dino.velY + gravity) = 304.8 := by
    rw [hd]
    show g.dino.y + (-jumpPower + gravity) = 304.8
    rw [hy]
    unfold jumpPower gravity
    norm_num
  refine ⟨⟨by rw [hd], ?_, hsum⟩, ?_, ?_⟩
  · rw [hd]
    show -jumpPower = -16
    rfl
  · have hland : (handleJump m g).dino.y + ((handleJump m g).dino.velY + gravity) ≥ 300 := by
      rw [hsum]
      norm_num
    obtain ⟨a, b, c, _⟩ := dinoPhysics_land _ hland
    rw [update_dino, if_pos hs]
    refine ⟨a, b, ?_⟩
    rw [c, hd]
  · have hk : (keyup false true (handleJump m g)).dino =
        { (handleJump m g).dino with ducking := false } := rfl
    have hks : (keyup false true (handleJump m g)).gameState = .playing := by
      rw [keyup_gameState, hs]
    have hland : (keyup false true (handleJump m g)).dino.y +
        ((keyup false true (handleJump m g)).dino.velY + gravity) ≥ 300 := by
      rw [hk]
      show (handleJump m g).dino.y + ((handleJump m g).dino.velY + gravity) ≥ 300
      rw [hsum]
      norm_num
    obtain ⟨a, b, c, _⟩ := dinoPhysics_land _ hland
    rw [update_dino, if_pos hks]
    refine ⟨a, b, ?_⟩
    rw [c, hk]
    rfl

/-- C19, witness: the ducked avatar after the first frame of the ducked
run. -/
theorem ducked_jump_no_height_witness :
    (duckedRun 1).gameState = .playing ∧ (duckedRun 1).dino.y = 320 ∧
    (duckedRun 1).dino.velY = 0 ∧ (duckedRun 1).dino.jumping = false ∧
    ((update mathZero 10 (handleJump mathZero (duckedRun 1))).dino.jumping = false ∧
      (update mathZero 10 (handleJump mathZero (duckedRun 1))).dino.velY = 0 ∧
      (update mathZero 10 (handleJump mathZero (duckedRun 1))).dino.y =
        (if (duckedRun 1).dino.ducking = true then 320 else 300)) :=
  ⟨by decide!, by decide!, by decide!, by decide!,
    (ducked_jump_no_height mathZero 10 (duckedRun 1) (by decide!) (by decide!) (by decide!)
      (by decide!)).2.1⟩

/-- C18: a bird of height 25 whose y is one of the spawn heights 200 and 250
plus an offset in [-30, 30] has y <= 280 and its inset box does not overlap
the inset hitbox of the avatar in either ground pose, at any x; when the sine
stays within [-1, 1] every bird of a reachable state is such a bird, so it
does not overlap a grounded avatar; and an avatar that is not jumping after
`updateDino` is in one of the two ground poses. -/
theorem bird_misses_grounded (m : Math) (hsin : ∀ t : ℚ, -1 ≤ m.sin t ∧ m.sin t ≤ 1)
    (g : DinoGame) (hr : Reachable m g) :
    (∀ (d : Dino) (o : Obstacle) (off : ℚ),
      ((d.y = 300 ∧ d.height = 45) ∨ (d.y = 320 ∧ d.height = 30)) →
      (o.initialY = 200 ∨ o.initialY = 250) → -30 ≤ off → off ≤ 30 →
      o.y = o.initialY + off → o.height = 25 →
      o.y ≤ 280 ∧
      isColliding
        { x := d.x + 8, y := d.y + 5, width := d.width - 16, height := d.height - 10 }
        { x := o.x + 2, y := o.y + 2, width := o.width - 4, height := o.height - 4 }
        = false) ∧
    (∀ o ∈ g.obstacles, o.type = .bird →
      (o.height = 25 ∧ (o.initialY = 200 ∨ o.initialY = 250) ∧
        ∃ off : ℚ, -30 ≤ off ∧ off ≤ 30 ∧ o.y = o.initialY + off) ∧
      (((g.dino.y = 300 ∧ g.dino.height = 45) ∨ (g.dino.y = 320 ∧ g.dino.height = 30)) →
        isColliding (dinoBox g.dino) (obstacleBox o) = false)) ∧
    (∀ d : Dino, (dinoPhysics d).jumping = false →
      ((dinoPhysics d).y = 300 ∧ (dinoPhysics d).height = 45) ∨
        ((dinoPhysics d).y = 320 ∧ (dinoPhysics d).height = 30)) := by
  have hle : ∀ (o : Obstacle) (off : ℚ), (o.initialY = 200 ∨ o.initialY = 250) → off ≤ 30 →
      o.y = o.initialY + off → o.y ≤ 280 := by
    intro o off hinit hoff hy
    rw [hy]
    rcases hinit with h | h <;> rw [h] <;> linarith
  refine ⟨?_, ?_, dinoPhysics_pose⟩
  · intro d o off hpose hinit _ hoff hy hh
    exact ⟨hle o off hinit hoff hy, grounded_bird_miss d o hpose hh (hle o off hinit hoff hy)⟩
  · intro o ho hb
    have hgeo := reachable_obstacles m
      (fun o => o.type = .bird → o.height = 25 ∧ (o.initialY = 200 ∨ o.initialY = 250) ∧
        ∃ off : ℚ, -30 ≤ off ∧ off ≤ 30 ∧ o.y = o.initialY + off)
      (bird_geometry_kept m hsin).1 (bird_geometry_kept m hsin).2 (fun _ _ h => h) g hr o ho hb
    refine ⟨hgeo, ?_⟩
    intro hpose
    obtain ⟨hh, hinit, off, _, hoff, hy⟩ := hgeo
    exact grounded_bird_miss g.dino o hpose hh (hle o off hinit hoff hy)

/-- C18, witness: on the host that only spawns birds, the state after 127
frames holds a bird and a standing avatar. -/
theorem bird_misses_grounded_witness :
    (∀ t : ℚ, -1 ≤ mathBird.sin t ∧ mathBird.sin t ≤ 1) ∧
    Reachable mathBird (birdRun 127) ∧
    (birdRun 127).obstacles.map (fun o => (o.type, o.x, o.y)) = [(.bird, 792, 250)] ∧
    ((birdRun 127).dino.y = 300 ∧ (birdRun 127).dino.height = 45) ∧
    (∀ o ∈ (birdRun 127).obstacles, o.type = .bird →
      (o.height = 25 ∧ (o.initialY = 200 ∨ o.initialY = 250) ∧
        ∃ off : ℚ, -30 ≤ off ∧ off ≤ 30 ∧ o.y = o.initialY + off) ∧
      ((((birdRun 127).dino.y = 300 ∧ (birdRun 127).dino.height = 45) ∨
          ((birdRun 127).dino.y = 320 ∧ (birdRun 127).dino.height = 30)) →
        isColliding (dinoBox (birdRun 127).dino) (obstacleBox o) = false)) :=
  have hsin : ∀ t : ℚ, -1 ≤ mathBird.sin t ∧ mathBird.sin t ≤ 1 := by
    intro t
    show -1 ≤ (0 : ℚ) ∧ (0 : ℚ) ≤ 1
    norm_num
  ⟨hsin, reachable_run _ _ _ _, by decide!, by decide!,
    (bird_misses_grounded mathBird hsin (birdRun 127) (reachable_run _ _ _ _)).2.1⟩

/-- C20: in every reachable state in phase Playing the speed is at most 24,
less than the width 50 of the window 70 < x < 120, so the move of one tick
takes no obstacle from x >= 120 to x <= 70; for a cactus and the avatar in a
ground pose the inset boxes overlap exactly when 70 < x < 120; and when a
tick ends with a cactus in that window and the avatar not jumping, the phase
after the tick is GameOver. -/
theorem cactus_no_tunnel (m : Math) (g : DinoGame) (hr : Reachable m g)
    (hplay : g.gameState = .playing) :
    g.gameSpeed ≤ 24 ∧ (24 : ℚ) < 120 - 70 ∧
    (∀ o : Obstacle, o.x ≥ 120 → (moveObstacle m g.gameSpeed o).x > 70) ∧
    (∀ (d : Dino) (o : Obstacle), d.x = 80 → d.width = 50 →
      ((d.y = 300 ∧ d.height = 45) ∨ (d.y = 320 ∧ d.height = 30)) →
      o.y = 310 → o.width = 20 → o.height = 40 →
      (isColliding
        { x := d.x + 8, y := d.y + 5, width := d.width - 16, height := d.height - 10 }
        { x := o.x + 2, y := o.y + 2, width := o.width - 4, height := o.height - 4 }
        = true ↔ 70 < o.x ∧ o.x < 120)) ∧
    (∀ (dt : ℚ), ∀ o ∈ (update m dt g).obstacles, o.type = .cactus → 70 < o.x → o.x < 120 →
      (update m dt g).dino.jumping = false → (update m dt g).gameState = .gameOver) := by
  have hspeed := reachable_gameSpeed m g hr
  refine ⟨hspeed, by norm_num, ?_, ?_, ?_⟩
  · intro o ho
    rw [(moveObstacle_x m g.gameSpeed o).1]
    have h120 : (120 : ℚ) ≤ o.x := ho
    show 70 < o.x - g.gameSpeed
    linarith
  · intro d o hx hw hpose hoy how hoh
    exact cactus_window d o hx hw hpose hoy how hoh
  · intro dt o ho hc h70 h120 hj
    have hgeo : o.y = 310 ∧ o.width = 20 ∧ o.height = 40 :=
      update_obstacles_all m
        (fun o => o.type = .cactus → o.y = 310 ∧ o.width = 20 ∧ o.height = 40)
        (cactus_geometry_kept m).1 (cactus_geometry_kept m).2 dt g
        (reachable_obstacles m
          (fun o => o.type = .cactus → o.y = 310 ∧ o.width = 20 ∧ o.height = 40)
          (cactus_geometry_kept m).1 (cactus_geometry_kept m).2 (fun _ _ h => h) g hr)
        o ho hc
    have hd : (update m dt g).dino = dinoPhysics g.dino := by
      rw [update_dino, if_pos hplay]
    rw [hd] at hj
    have hpose := dinoPhysics_pose g.dino hj
    have hx : (dinoPhysics g.dino).x = 80 ∧ (dinoPhysics g.dino).width = 50 := by
      rw [(dinoPhysics_x g.dino).1, (dinoPhysics_x g.dino).2]
      exact reachable_dino_x m g hr
    have hcol : isColliding (dinoBox (advance m g).dino) (obstacleBox o) = true := by
      rw [advance_dino]
      exact (cactus_window _ o hx.1 hx.2 hpose hgeo.1 hgeo.2.1 hgeo.2.2).mpr ⟨h70, h120⟩
    rw [update_obstacles m dt g hplay] at ho
    rw [update_gameState, if_pos hplay, checkCollisions_gameState, if_pos]
    rw [List.any_eq_true]
    exact ⟨o, ho, hcol⟩

/-- C20, witness: frame 211 of the ducked run, one tick before the cactus
enters the window. -/
theorem cactus_no_tunnel_witness :
    Reachable mathZero (duckedRun 211) ∧ (duckedRun 211).gameState = .playing ∧
    (duckedRun 211).gameSpeed ≤ 24 ∧
    (∀ (dt : ℚ), ∀ o ∈ (update mathZero dt (duckedRun 211)).obstacles,
      o.type = .cactus → 70 < o.x → o.x < 120 →
      (update mathZero dt (duckedRun 211)).dino.jumping = false →
      (update mathZero dt (duckedRun 211)).gameState = .gameOver) :=
  have hplay : (duckedRun 211).gameState = .playing := by decide!
  ⟨reachable_run _ _ _ _, hplay,
    (cactus_no_tunnel mathZero (duckedRun 211) (reachable_run _ _ _ _) hplay).1,
    (cactus_no_tunnel mathZero (duckedRun 211) (reachable_run _ _ _ _) hplay).2.2.2.2⟩

/-- C21: when the collision check of a tick in phase Playing finds an
overlap, the tick still runs to its end: the phase is GameOver, the frame
counter and the score have advanced (score by 0.2), the speed is the one for
the new score, and the best score is max(old best, floor(old score)); so when
the increment carries the score over an integer the floor of the final score
is the best score plus 1. -/
theorem update_on_collision (m : Math) (dt : ℚ) (g : DinoGame)
    (hplay : g.gameState = .playing)
    (hcol : ∃ o ∈ (advance m g).obstacles,
      isColliding
        { x := (advance m g).dino.x + 8, y := (advance m g).dino.y + 5
          width := (advance m g).dino.width - 16, height := (advance m g).dino.height - 10 }
        { x := o.x + 2, y := o.y + 2, width := o.width - 4, height := o.height - 4 }
        = true) :
    checkCollisions m (advance m g) = gameOver m (advance m g) ∧
    (update m dt g).gameState = .gameOver ∧
    (update m dt g).frameCount = g.frameCount + 1 ∧
    (update m dt g).score = g.score + 0.2 ∧
    (update m dt g).gameSpeed =
      min (8 * (1 + 0.15 * ((⌊(g.score + 0.2) / 100⌋ : ℤ) : ℚ))) (3 * 8) ∧
    (update m dt g).highScore = max g.highScore ⌊g.score⌋ ∧
    (update m dt g).scoreElement = ⌊g.score + 0.2⌋ ∧
    (g.highScore ≤ ⌊g.score⌋ → ⌊g.score + 0.2⌋ = ⌊g.score⌋ + 1 →
      ⌊(update m dt g).score⌋ = (update m dt g).highScore + 1) := by
  have hany : ((advance m g).obstacles.any fun o =>
      isColliding (dinoBox (advance m g).dino) (obstacleBox o)) = true := by
    rw [List.any_eq_true]
    exact hcol
  have hcheck : checkCollisions m (advance m g) = gameOver m (advance m g) := by
    unfold checkCollisions
    rw [checkCollisionsLoop_eq, if_pos hany]
  have hupd : update m dt g = updateDifficulty (gameOver m (advance m g)) := by
    unfold update
    rw [if_neg (not_not.mpr hplay), hcheck]
  have hscore := (update_score m dt g hplay).1
  have hbest : (update m dt g).highScore = max g.highScore ⌊g.score⌋ := by
    rw [hupd, (updateDifficulty_fields _).1, gameOver_highScore_max, advance_highScore,
      advance_score]
  refine ⟨hcheck, ?_, ?_, hscore, ?_, hbest, ?_, ?_⟩
  · rw [hupd, (updateDifficulty_fields _).2.1]
    exact gameOver_gameState m _
  · rw [hupd, (updateDifficulty_fields _).2.2.1, gameOver_frameCount, advance_frameCount]
  · rw [(update_score m dt g hplay).2]
    unfold speedForScore Math.floor baseSpeed
    congr 1 <;> ring
  · have h : (update m dt g).scoreElement = ⌊(update m dt g).score⌋ := by
      rw [hupd]
      exact (updateDifficulty_fields _).2.2.2.2
    rw [h, hscore]
  · intro hle hcarry
    rw [hscore, hbest, hcarry, max_eq_right hle]

/-- C21, witness: the late jump ends on tick 215 with score 43 and best
score 42. -/
theorem update_on_collision_witness :
    (lateJumpRun 37).gameState = .playing ∧
    (update mathZero 10 (lateJumpRun 37)).gameState = .gameOver ∧
    (update mathZero 10 (lateJumpRun 37)).score = (lateJumpRun 37).score + 0.2 ∧
    (update mathZero 10 (lateJumpRun 37)).highScore =
      max (lateJumpRun 37).highScore ⌊(lateJumpRun 37).score⌋ ∧
    (lateJumpRun 37).score = 42.8 ∧ (lateJumpRun 37).highScore = 0 :=
  ⟨lateJumpRun_collision.1,
    (update_on_collision mathZero 10 (lateJumpRun 37) lateJumpRun_collision.1
      lateJumpRun_collision.2.2.2).2.1,
    (update_on_collision mathZero 10 (lateJumpRun 37) lateJumpRun_collision.1
      lateJumpRun_collision.2.2.2).2.2.2.1,
    (update_on_collision mathZero 10 (lateJumpRun 37) lateJumpRun_collision.1
      lateJumpRun_collision.2.2.2).2.2.2.2.2.1,
    lateJumpRun_collision.2.1, lateJumpRun_collision.2.2.1⟩

/-- C22: every reachable state holds at most one obstacle: the speed is
between 8 and 24, an obstacle is spawned at x = 800 with width at most 35 and
has moved by at least 8 on each of the `obstacleTimer + 1` ticks since, and on
a tick whose incremented timer exceeds max(60, 150 - 3 * gameSpeed) the move
takes every obstacle already in the list below x + width = 0, so it is pruned
on the tick that spawns the next one. -/
theorem at_most_one_obstacle (m : Math) (g : DinoGame) (hr : Reachable m g) :
    g.obstacles.length ≤ 1 ∧
    (8 ≤ g.gameSpeed ∧ g.gameSpeed ≤ 24) ∧
    (∀ o : Obstacle, FreshObstacle o → o.x = 800 ∧ o.width ≤ 35) ∧
    (∀ o ∈ g.obstacles, o.width ≤ 35 ∧ o.x ≤ 800 - 8 * (g.obstacleTimer + 1)) ∧
    (g.obstacleTimer + 1 > max 60 (150 - 3 * g.gameSpeed) →
      ∀ o ∈ g.obstacles,
        (moveObstacle m g.gameSpeed o).x + (moveObstacle m g.gameSpeed o).width < 0) ∧
    (∀ dt : ℚ, (update m dt g).obstacles.length ≤ 1) := by
  have hinv := reachable_spawnInvariant m g hr
  have hinv' := hinv
  obtain ⟨hs0, hv, ht0, _, hlen, hobs⟩ := hinv'
  refine ⟨hlen, ⟨?_, ?_⟩, ?_, ?_, ?_, ?_⟩
  · rw [hv]
    exact speedForScore_ge _ hs0
  · rw [hv]
    exact speedForScore_le _
  · rintro o ⟨hx, hkind⟩
    refine ⟨hx, ?_⟩
    rcases hkind with ⟨_, _, hw, _⟩ | ⟨_, _, _, hw, _⟩ <;> linarith
  · intro o ho
    obtain ⟨hw, hb, hx⟩ := hobs o ho
    refine ⟨hw, ?_⟩
    have hg8 := speedForScore_ge _ hb
    have hmul : (g.obstacleTimer + 1) * 8 ≤
        (g.obstacleTimer + 1) * speedForScore (g.score - 0.2 * (g.obstacleTimer + 1)) :=
      mul_le_mul_of_nonneg_left hg8 (by linarith)
    linarith
  · intro hspawn
    have hspawn' : g.obstacleTimer + 1 > obstacleFrequency g.gameSpeed := by
      unfold obstacleFrequency
      rw [mul_comm]
      exact hspawn
    exact spawn_prunes m g hinv hspawn'
  · intro dt
    exact (spawnInvariant_update m dt g hinv).2.2.2.2.1

/-- C22, witness: on the host that only spawns birds nothing ends the game;
after 254 frames the first bird is gone and the second is the only
obstacle. -/
theorem at_most_one_obstacle_witness :
    Reachable mathBird (birdRun 254) ∧ (birdRun 254).obstacles.length ≤ 1 ∧
    (birdRun 254).obstacles.map (fun o => o.x) = [792] ∧
    (birdRun 230).obstacles.map (fun o => o.x) = [-32] ∧ (birdRun 231).obstacles = [] :=
  ⟨reachable_run _ _ _ _,
    (at_most_one_obstacle mathBird (birdRun 254) (reachable_run _ _ _ _)).1,
    by decide!, by decide!, by decide!⟩

end DinoGame
